import Mathlib

/-!
alphabill-evm-wallet: the EVM REST client.

A shallow embedding of `wallet/evm/client/rest_client.go` and of the fee
check described for `wallet/evm`, followed by theorems about them.

Numeric model.
`WeiToAlpha` goes through three library values:
* a `decimal.Decimal` (shopspring): an integer coefficient times a power of ten;
* a `float64`, obtained from the decimal with `Decimal.Float64`
  (`big.Rat.Float64`: the nearest float64, ties to even);
* a `uint64`, obtained with the Go conversion `uint64(f)` (truncation toward
  zero; the result is implementation-specific when the truncated value does
  not fit the type).
-/

namespace EvmWallet

/-! ## decimal.Decimal -/

/-- A `decimal.Decimal`: the number `value * 10 ^ exp`. -/
structure Decimal where
  value : Int
  exp : Int
  deriving DecidableEq, Repr

namespace Decimal

/-- The library default `decimal.DivisionPrecision`. -/
def DivisionPrecision : Nat := 16

/-- Models `decimal.RequireFromString` on the base-10 rendering of an integer
(`wei.String()`): the integer itself, with exponent zero. -/
def ofBigInt (i : Int) : Decimal := ⟨i, 0⟩

/-- The number as a fraction: numerator (signed) and positive denominator. -/
def toFrac (d : Decimal) : Int × Nat :=
  if 0 ≤ d.exp then (d.value * 10 ^ d.exp.toNat, 1) else (d.value, 10 ^ (-d.exp).toNat)

/-- Models `Decimal.DivRound d d2 precision` for a non-negative precision: the quotient
`d / d2` rounded to an integer multiple of `10 ^ (-precision)`, a remainder of
one half or more being rounded away from zero. The library panics on a zero
divisor, which is `none` here. -/
def DivRound (d d2 : Decimal) (precision : Nat) : Option Decimal :=
  let a := d.toFrac
  let b := d2.toFrac
  -- d / d2 * 10 ^ precision = num / den
  let num : Nat := a.1.natAbs * b.2 * 10 ^ precision
  let den : Nat := b.1.natAbs * a.2
  if den = 0 then none
  else
    let q := num / den
    let r := num % den
    let q := if 2 * r < den then q else q + 1
    let neg := decide (a.1 < 0) != decide (b.1 < 0)
    some ⟨if neg then -(q : Int) else (q : Int), -(precision : Int)⟩

/-- Models `Decimal.Div`: `DivRound` at `DivisionPrecision`. -/
def Div (d d2 : Decimal) : Option Decimal := DivRound d d2 DivisionPrecision

end Decimal

/-! ## float64 -/

/-- A float64 value that is not a NaN: a signed infinity, or the signed number
`mant * 2 ^ exp`. -/
inductive Float64 where
  | finite (neg : Bool) (mant : Nat) (exp : Int)
  | inf (neg : Bool)
  deriving DecidableEq, Repr

/-- Binary logarithm by repeated halving, at most `fuel` times. -/
def log2Fuel : Nat → Nat → Nat
  | 0, _ => 0
  | fuel + 1, n => if n < 2 then 0 else log2Fuel fuel (n / 2) + 1

/-- For positive `n`, the exponent `a` with `2 ^ a ≤ n < 2 ^ (a + 1)`. -/
def log2Floor (n : Nat) : Nat := log2Fuel n n

/-- For positive `n` and `d`, the integer `e` with `2 ^ e ≤ n / d < 2 ^ (e + 1)`. -/
def ilog2Quot (n d : Nat) : Int :=
  let a := log2Floor n
  let b := log2Floor d
  if d * 2 ^ (a - b) ≤ n * 2 ^ (b - a) then (a : Int) - (b : Int) else (a : Int) - (b : Int) - 1

/-- Round the fraction `num / den` to the nearest integer, ties to the even one. -/
def roundHalfEven (num den : Nat) : Nat :=
  let q := num / den
  let r := num % den
  if 2 * r < den then q
  else if den < 2 * r then q + 1
  else if q % 2 = 0 then q else q + 1

/-- The float64 nearest to the non-negative fraction `n / d` (`d` positive), ties to
even, as a mantissa and a binary exponent; `none` stands for overflow to infinity.
The spacing of float64 values around `n / d` is `2 ^ (max e (-1022) - 52)` where
`2 ^ e ≤ n / d < 2 ^ (e + 1)`. -/
def roundToFloat64 (n d : Nat) : Option (Nat × Int) :=
  if n = 0 then some (0, 0)
  else
    let e := ilog2Quot n d
    let qe : Int := max e (-1022) - 52
    let m := if 0 ≤ qe then roundHalfEven n (d * 2 ^ qe.toNat)
             else roundHalfEven (n * 2 ^ (-qe).toNat) d
    -- the largest finite float64 is (2 ^ 53 - 1) * 2 ^ 971
    if 971 < qe ∨ (qe = 971 ∧ 2 ^ 53 ≤ m) then none else some (m, qe)

/-- Models `Decimal.Float64` (that is `d.Rat().Float64()`), dropping the exactness flag as
the caller does. -/
def Decimal.Float64 (d : Decimal) : Float64 :=
  let a := d.toFrac
  match roundToFloat64 a.1.natAbs a.2 with
  | some (m, e) => Float64.finite (decide (a.1 < 0)) m e
  | none => Float64.inf (decide (a.1 < 0))

/-- The magnitude of a finite float64 with its fraction discarded. -/
def truncMag (mant : Nat) (exp : Int) : Nat :=
  if 0 ≤ exp then mant * 2 ^ exp.toNat else mant / 2 ^ (-exp).toNat

/-- The Go conversion `uint64(f)` where the language defines it: the fraction is
discarded, and the result is defined when the truncated value fits a uint64.
`none` is the implementation-specific case. -/
def Float64.toUint64? : Float64 → Option Nat
  | Float64.finite neg m e =>
    let t := truncMag m e
    if t = 0 then some 0
    else if neg then none
    else if t < 2 ^ 64 then some t else none
  | Float64.inf _ => none

/-- The Go conversion `uint64(f)`. `impl` is what the platform yields when the
truncated value does not fit (reduced to 64 bits). -/
def Float64.toUint64 (impl : Float64 → Nat) (f : Float64) : Nat :=
  match f.toUint64? with
  | some t => t
  | none => impl f % 2 ^ 64

/-! ## WeiToAlpha -/

/-- Embeds `alpha2Wei = decimal.NewFromFloat(10).Pow(decimal.NewFromFloat(10))`, the number
`10 ^ 10`, written with coefficient 1 and exponent 10; a quotient by it depends on
the number only, not on how it is written. -/
def alpha2Wei : Decimal := ⟨1, 10⟩

/-- Embeds `WeiToAlpha`, up to and including the float64 step. The division cannot fail,
`alpha2Wei` being non-zero; the fall-back keeps the function total. -/
def weiToAlphaFloat (wei : Int) : Float64 :=
  let amount := Decimal.ofBigInt wei
  match amount.Div alpha2Wei with
  | some result => result.Float64
  | none => Float64.finite false 0 0

/-- Embeds `WeiToAlpha(wei)`: `uint64(f)` for `f, _ := amount.Div(alpha2Wei).Float64()`. -/
def WeiToAlpha (impl : Float64 → Nat) (wei : Int) : Nat :=
  (weiToAlphaFloat wei).toUint64 impl

/-! ## Errors

Go error values. The package compares errors with `errors.Is` against two
sentinels only: its own `ErrNotFound` and `io.EOF`. -/

/-- An error value made outside this package (net/http, io, the CBOR codec). No
such value is, or wraps, this package's `ErrNotFound`. -/
inductive LibError where
  | EOF
  | other (msg : String)
  | wrap (msg : String) (err : LibError)
  deriving DecidableEq, Repr

/-- An error value seen by this package. -/
inductive Error where
  /-- The sentinel `ErrNotFound = errors.New("not found")`. -/
  | ErrNotFound
  /-- An error made by a library. -/
  | lib (err : LibError)
  /-- The value of `fmt.Errorf` with no `%w` verb: it wraps nothing. -/
  | errorf (msg : String)
  /-- The value of `fmt.Errorf(pre ++ "%w", err)`: it wraps `err`. -/
  | wrapf (pre : String) (err : Error)
  deriving DecidableEq, Repr

/-- The text of a library error. -/
def LibError.message : LibError → String
  | LibError.EOF => "EOF"
  | LibError.other msg => msg
  | LibError.wrap msg _ => msg

/-- The text `err.Error()`. -/
def Error.message : Error → String
  | Error.ErrNotFound => "not found"
  | Error.lib err => err.message
  | Error.errorf msg => msg
  | Error.wrapf pre err => pre ++ err.message

/-- That is `errors.Is(err, io.EOF)` on a library error. -/
def LibError.isEOF : LibError → Bool
  | LibError.EOF => true
  | LibError.other _ => false
  | LibError.wrap _ err => err.isEOF

/-- That is `errors.Is(err, io.EOF)`. -/
def Error.isEOF : Error → Bool
  | Error.ErrNotFound => false
  | Error.lib err => err.isEOF
  | Error.errorf _ => false
  | Error.wrapf _ err => err.isEOF

/-- That is `errors.Is(err, ErrNotFound)`. -/
def Error.isErrNotFound : Error → Bool
  | Error.ErrNotFound => true
  | Error.lib _ => false
  | Error.errorf _ => false
  | Error.wrapf _ err => err.isErrNotFound

/-! ## HTTP and CBOR, as far as the client uses them -/

abbrev Bytes := List Nat

def StatusOK : Int := 200
def StatusAccepted : Int := 202
def StatusNotFound : Int := 404

def userAgentHeader : String := "User-Agent"
def clientUserAgent : String := "EVM API Client/0.1"
def apiPathPrefix : String := "/api/v1"
def evmApiSubPrefix : String := "evm"

/-- The fields of `url.URL` that the client sets. -/
structure URL where
  Scheme : String
  Host : String
  Path : String
  deriving DecidableEq, Repr

/-- An `http.Request` as the client builds it. -/
structure Request where
  Method : String
  URL : String
  Body : Option Bytes
  Header : List (String × String)
  deriving DecidableEq, Repr

/-- An `http.Response`: numeric status, status line and body. -/
structure Response where
  StatusCode : Int
  Status : String
  Body : Bytes
  deriving DecidableEq, Repr

/-- A `types.Cbor.Decode(body, data)` call: from the body and the present content
of the destination to the content it leaves there and the error it returns. -/
abbrev Decoder (α : Type) := Bytes → α → α × Option LibError

/-- The anonymous struct `errInfo` of `decodeResponse`. -/
structure ErrInfo where
  Err : String
  deriving DecidableEq, Repr

/-- The anonymous response struct of `GetBalance`. -/
structure BalanceResp where
  Balance : String
  Counter : Nat
  deriving DecidableEq, Repr

/-- A `types.TransactionOrder` of alphabill-go-base, kept abstract. -/
structure TransactionOrder where
  raw : Bytes
  deriving DecidableEq, Repr

/-- A `types.TransactionRecord` of alphabill-go-base, kept abstract. -/
structure TransactionRecord where
  raw : Bytes
  deriving DecidableEq, Repr

/-- A `types.TxProof` of alphabill-go-base, kept abstract. -/
structure TxProof where
  raw : Bytes
  deriving DecidableEq, Repr

/-- An `evm.CallEVMRequest` of alphabill-evm, kept abstract. -/
structure CallEVMRequest where
  raw : Bytes
  deriving DecidableEq, Repr

/-- An `evm.ProcessingDetails` of alphabill-evm, kept abstract. -/
structure ProcessingDetails where
  raw : Bytes
  deriving DecidableEq, Repr

/-- The anonymous struct `proof` of `GetTxProof`; both fields are pointers. -/
structure ProofResp where
  TxRecord : Option TransactionRecord
  TxProof : Option TxProof
  deriving DecidableEq, Repr

/-- A `types.TxRecordProof`. -/
structure TxRecordProof where
  TxRecord : Option TransactionRecord
  TxProof : Option TxProof
  deriving DecidableEq, Repr

/-- The anonymous struct `callEVMResponse` of `Call`. -/
structure CallResp where
  Details : Option ProcessingDetails
  deriving DecidableEq, Repr

/-- The anonymous response struct of `GetTransactionCount`. -/
structure NonceResp where
  Nonce : Nat
  deriving DecidableEq, Repr

/-- The anonymous response struct of `GetGasPrice`. -/
structure GasPriceResp where
  GasPrice : String
  deriving DecidableEq, Repr

set_option linter.dupNamespace false in
/-- A `RoundNumber` of the client package. -/
structure RoundNumber where
  RoundNumber : Nat
  LastIndexedRoundNumber : Nat
  deriving DecidableEq, Repr

/-- A `Bill` of the client package. -/
structure Bill where
  Id : Bytes
  Value : Nat
  Counter : Nat
  deriving DecidableEq, Repr

/-- A `context.Context`; the client only hands it on. -/
structure Context where
  key : Nat
  deriving DecidableEq, Repr

/-- The library functions the client calls, with whatever behaviour they have. -/
structure Lib where
  /-- Stands for `path.Join`. -/
  pathJoin : List String → String
  /-- Stands for `(*url.URL).String`. -/
  urlString : URL → String
  /-- Stands for `http.NewRequestWithContext`. -/
  NewRequestWithContext : Context → String → String → Option Bytes → Except LibError Request
  /-- Stands for `types.Cbor.Marshal` on a transaction order. -/
  MarshalTx : TransactionOrder → Except LibError Bytes
  /-- Stands for `types.Cbor.Marshal` on a call request. -/
  MarshalCall : CallEVMRequest → Except LibError Bytes
  /-- Stands for `types.Cbor.Decode` into `errInfo`. -/
  DecodeErrInfo : Decoder ErrInfo
  /-- Stands for `types.Cbor.Decode` into the balance response. -/
  DecodeBalance : Decoder BalanceResp
  /-- Stands for `types.Cbor.Decode` into the proof struct. -/
  DecodeProof : Decoder ProofResp
  /-- Stands for `types.Cbor.Decode` into the call response. -/
  DecodeCall : Decoder CallResp
  /-- Stands for `types.Cbor.Decode` into a `uint64` (the round number). -/
  DecodeUint64 : Decoder Nat
  /-- Stands for `types.Cbor.Decode` into the transaction-count response. -/
  DecodeNonce : Decoder NonceResp
  /-- Stands for `types.Cbor.Decode` into the gas-price response. -/
  DecodeGasPrice : Decoder GasPriceResp
  /-- What `uint64(f)` yields on this platform when the value does not fit. -/
  uint64OutOfRange : Float64 → Nat

/-- The `EvmClient`: the backend address and the HTTP client, whose `Do` either
fails or yields a response. -/
structure EvmClient where
  addr : URL
  hc : Request → Except LibError Response

/-- One hexadecimal digit. -/
def hexDigit (n : Nat) : Char := "0123456789abcdef".data.getD n '0'

/-- Models `hex.EncodeToString`. -/
def hexEncodeToString (b : Bytes) : String :=
  String.mk (b.flatMap fun x => [hexDigit (x / 16 % 16), hexDigit (x % 16)])

/-- Models `hexutil.Encode`. -/
def hexutilEncode (b : Bytes) : String := "0x" ++ hexEncodeToString b

/-- Embeds `buildURL`. -/
def buildURL (L : Lib) (url : URL) (pathElements : List String) : URL :=
  { url with Path := L.pathJoin pathElements }

/-- Embeds `EvmClient.getURL`. -/
def EvmClient.getURL (L : Lib) (e : EvmClient) (pathElements : List String) : URL :=
  buildURL L e.addr pathElements

/-- Models `req.Header.Set(key, value)`: the value replaces what the key had. -/
def headerSet (req : Request) (key value : String) : Request :=
  { req with Header := (key, value) :: req.Header.filter fun kv => kv.1 != key }

/-- Embeds `decodeResponse`. The destination `data` is `none` for a nil interface. The result
is the content of the destination afterwards and the returned error. -/
def decodeResponse {α : Type} (L : Lib) (decode : Decoder α) (rsp : Response)
    (successStatus : Int) (data : Option α) (allowEmptyResponse : Bool) :
    Option α × Option Error :=
  if rsp.StatusCode = successStatus then
    match data with
    | none => (none, none)
    | some d =>
      let r := decode rsp.Body d
      match r.2 with
      | some err =>
        if !err.isEOF || !allowEmptyResponse then
          (some r.1, some (Error.wrapf "failed to decode response body: " (Error.lib err)))
        else (some r.1, none)
      | none => (some r.1, none)
  else if rsp.StatusCode = StatusNotFound then (data, some Error.ErrNotFound)
  else
    let r := L.DecodeErrInfo rsp.Body ⟨""⟩
    match r.2 with
    | some _ => (data, some (Error.errorf rsp.Status))
    | none => (data, some (Error.errorf (rsp.Status ++ ", " ++ r.1.Err)))

/-- Embeds `EvmClient.get`. -/
def EvmClient.get {α : Type} (L : Lib) (e : EvmClient) (decode : Decoder α) (ctx : Context)
    (addr : URL) (data : Option α) (allowEmptyResponse : Bool) : Option α × Option Error :=
  match L.NewRequestWithContext ctx "GET" (L.urlString addr) none with
  | Except.error err => (data, some (Error.wrapf "failed to build http request: " (Error.lib err)))
  | Except.ok req =>
    let req := headerSet req "User-Agent" clientUserAgent
    match e.hc req with
    | Except.error err => (data, some (Error.wrapf "request to rpc node failed: " (Error.lib err)))
    | Except.ok rsp => decodeResponse L decode rsp StatusOK data allowEmptyResponse

/-- Embeds `EvmClient.post`. -/
def EvmClient.post {α : Type} (L : Lib) (e : EvmClient) (decode : Decoder α) (ctx : Context)
    (u : URL) (body : Bytes) (okCode : Int) (rspData : Option α) : Option α × Option Error :=
  match L.NewRequestWithContext ctx "POST" (L.urlString u) (some body) with
  | Except.error err =>
    (rspData, some (Error.wrapf "failed to build http request: " (Error.lib err)))
  | Except.ok req =>
    let req := headerSet req userAgentHeader clientUserAgent
    match e.hc req with
    | Except.error err =>
      (rspData, some (Error.wrapf "send evm node request failed: " (Error.lib err)))
    | Except.ok rsp => decodeResponse L decode rsp okCode rspData true

/-- The value of a decimal digit. -/
def digitVal (c : Char) : Option Nat :=
  if c.isDigit then some (c.toNat - 48) else none

/-- Read a run of decimal digits, most significant first, onto `acc`. -/
def scanDigits : List Char → Nat → Option Nat
  | [], acc => some acc
  | c :: cs, acc =>
    match digitVal c with
    | some d => scanDigits cs (acc * 10 + d)
    | none => none

/-- Models `new(big.Int).SetString(s, 10)`: an optional sign and at least one decimal digit,
the whole string being consumed; `none` when `ok` is false. -/
def SetString10 (s : String) : Option Int :=
  match s.data with
  | '-' :: cs => if cs.isEmpty then none else (scanDigits cs 0).map fun n => -(n : Int)
  | '+' :: cs => if cs.isEmpty then none else (scanDigits cs 0).map fun n => (n : Int)
  | cs => if cs.isEmpty then none else (scanDigits cs 0).map fun n => (n : Int)

/-- Embeds `EvmClient.GetBalance`: balance string, counter and error. -/
def EvmClient.GetBalance (L : Lib) (e : EvmClient) (ctx : Context) (ethAddr : Bytes) :
    String × Nat × Option Error :=
  let resp : BalanceResp := ⟨"", 0⟩
  let addr := e.getURL L [apiPathPrefix, evmApiSubPrefix, "balance", hexEncodeToString ethAddr]
  let r := e.get L L.DecodeBalance ctx addr (some resp) false
  match r.2 with
  | some err => ("", 0, some err)
  | none =>
    let resp := r.1.getD resp
    (resp.Balance, resp.Counter, none)

/-- Embeds `EvmClient.GetFeeCreditBill`: the bill pointer (`none` for nil) and the error. -/
def EvmClient.GetFeeCreditBill (L : Lib) (e : EvmClient) (ctx : Context) (unitID : Bytes) :
    Option Bill × Option Error :=
  let r := e.GetBalance L ctx unitID
  match r.2.2 with
  | some err =>
    if err.isErrNotFound then (none, none)
    else (none, some (Error.wrapf
      ("failed to read blance for addr " ++ hexutilEncode unitID ++ ": ") err))
  | none =>
    match SetString10 r.1 with
    | none => (none, some (Error.errorf
        ("account " ++ hexutilEncode unitID ++ " has invalid balance " ++ r.1)))
    | some balanceWei =>
      (some { Id := unitID, Value := WeiToAlpha L.uint64OutOfRange balanceWei, Counter := r.2.1 },
        none)

/-- Embeds `EvmClient.PostTransaction`: the error, `none` for nil. The response destination
is nil, so no decoder is ever run. -/
def EvmClient.PostTransaction (L : Lib) (e : EvmClient) (ctx : Context)
    (tx : TransactionOrder) : Option Error :=
  match L.MarshalTx tx with
  | Except.error err => some (Error.wrapf "failed to encode transactions: " (Error.lib err))
  | Except.ok b =>
    let r := e.post L (fun _ (d : Unit) => (d, none)) ctx
      (e.getURL L [apiPathPrefix, "transactions"]) b StatusAccepted none
    match r.2 with
    | some err => some (Error.wrapf "transaction send failed: " err)
    | none => none

/-- Embeds `EvmClient.GetRoundNumber`: the round pointer (`none` for nil) and the error. -/
def EvmClient.GetRoundNumber (L : Lib) (e : EvmClient) (ctx : Context) :
    Option RoundNumber × Option Error :=
  let round : Nat := 0
  let r := e.get L L.DecodeUint64 ctx (e.getURL L [apiPathPrefix, "rounds/latest"]) (some round)
    false
  match r.2 with
  | some err => (none, some (Error.wrapf "get round-number request failed: " err))
  | none =>
    let round := r.1.getD round
    (some { RoundNumber := round, LastIndexedRoundNumber := round }, none)

/-- Embeds `EvmClient.GetTxProof`: the proof pointer (`none` for nil) and the error. -/
def EvmClient.GetTxProof (L : Lib) (e : EvmClient) (ctx : Context) (_unitID : Bytes)
    (txHash : Bytes) : Option TxRecordProof × Option Error :=
  let proof : ProofResp := ⟨none, none⟩
  let addr := e.getURL L [apiPathPrefix, "transactions", hexEncodeToString txHash]
  let r := e.get L L.DecodeProof ctx addr (some proof) false
  match r.2 with
  | some err =>
    if err.isErrNotFound then (none, none)
    else (none, some (Error.wrapf "get tx proof request failed: " err))
  | none =>
    let proof := r.1.getD proof
    (some { TxRecord := proof.TxRecord, TxProof := proof.TxProof }, none)

/-- Embeds `EvmClient.GetTransactionCount`: the nonce and the error. -/
def EvmClient.GetTransactionCount (L : Lib) (e : EvmClient) (ctx : Context) (ethAddr : Bytes) :
    Nat × Option Error :=
  let resp : NonceResp := ⟨0⟩
  let addr := e.getURL L
    [apiPathPrefix, evmApiSubPrefix, "transactionCount", hexEncodeToString ethAddr]
  let r := e.get L L.DecodeNonce ctx addr (some resp) false
  match r.2 with
  | some err => (0, some err)
  | none => ((r.1.getD resp).Nonce, none)

/-- Embeds `EvmClient.Call`: the details pointer (`none` for nil) and the error. -/
def EvmClient.Call (L : Lib) (e : EvmClient) (ctx : Context) (callAttr : CallEVMRequest) :
    Option ProcessingDetails × Option Error :=
  match L.MarshalCall callAttr with
  | Except.error err =>
    (none, some (Error.wrapf "failed to encode transactions: " (Error.lib err)))
  | Except.ok b =>
    let callEVMResponse : CallResp := ⟨none⟩
    let addr := e.getURL L [apiPathPrefix, evmApiSubPrefix, "call"]
    let r := e.post L L.DecodeCall ctx addr b StatusOK (some callEVMResponse)
    match r.2 with
    | some err => (none, some (Error.wrapf "transaction send failed: " err))
    | none => ((r.1.getD callEVMResponse).Details, none)

/-- Embeds `EvmClient.GetGasPrice`: the gas price string and the error. -/
def EvmClient.GetGasPrice (L : Lib) (e : EvmClient) (ctx : Context) : String × Option Error :=
  let resp : GasPriceResp := ⟨""⟩
  let addr := e.getURL L [apiPathPrefix, evmApiSubPrefix, "gasPrice"]
  let r := e.get L L.DecodeGasPrice ctx addr (some resp) false
  match r.2 with
  | some err => ("", some (Error.wrapf "gas price request failed: " err))
  | none => ((r.1.getD resp).GasPrice, none)

/-! ## The fee check

`Wallet.SendEvmTx` and the check it makes before sending are not part of the
sources at hand (only their test is); the check is taken from the specification. -/

/-- A CBOR text string of fewer than 24 bytes: header `0x60 + n`, then `n` bytes. -/
def readText : Bytes → Option (String × Bytes)
  | [] => none
  | h :: rest =>
    if 0x60 ≤ h ∧ h < 0x78 ∧ h - 0x60 ≤ rest.length then
      some (String.mk ((rest.take (h - 0x60)).map Char.ofNat), rest.drop (h - 0x60))
    else none

/-- A CBOR unsigned integer below 24: one byte. -/
def readSmallUint : Bytes → Option (Nat × Bytes)
  | [] => none
  | h :: rest => if h < 24 then some (h, rest) else none

/-- A CBOR byte string of fewer than 24 bytes, or null (`0xf6`) for a nil pointer. -/
def readBytesOrNull : Bytes → Option (Option Bytes × Bytes)
  | [] => none
  | h :: rest =>
    if h = 0xf6 then some (none, rest)
    else if 0x40 ≤ h ∧ h < 0x58 ∧ h - 0x40 ≤ rest.length then
      some (some (rest.take (h - 0x40)), rest.drop (h - 0x40))
    else none

def typeError : LibError := LibError.other "cbor: cannot unmarshal"

/-- Reads `[errorString]`. -/
def sampleDecodeErrInfo : Decoder ErrInfo := fun body d =>
  match body with
  | [] => (d, some LibError.EOF)
  | 0x81 :: rest =>
    match readText rest with
    | some (s, []) => (⟨s⟩, none)
    | _ => (d, some typeError)
  | _ => (d, some typeError)

/-- Reads `[balance, counter]`. As the codec does, it fills the fields in order and
reports a field of the wrong type after the earlier ones are set. -/
def sampleDecodeBalance : Decoder BalanceResp := fun body d =>
  match body with
  | [] => (d, some LibError.EOF)
  | 0x82 :: rest =>
    match readText rest with
    | some (s, rest) =>
      match readSmallUint rest with
      | some (c, []) => (⟨s, c⟩, none)
      | _ => ({ d with Balance := s }, some typeError)
    | none => (d, some typeError)
  | _ => (d, some typeError)

/-- Reads `[TxRecord, TxProof]`. -/
def sampleDecodeProof : Decoder ProofResp := fun body d =>
  match body with
  | [] => (d, some LibError.EOF)
  | 0x82 :: rest =>
    match readBytesOrNull rest with
    | some (r, rest) =>
      match readBytesOrNull rest with
      | some (p, []) => (⟨r.map TransactionRecord.mk, p.map TxProof.mk⟩, none)
      | _ => ({ d with TxRecord := r.map TransactionRecord.mk }, some typeError)
    | none => (d, some typeError)
  | _ => (d, some typeError)

/-- Reads `[Details]`. -/
def sampleDecodeCall : Decoder CallResp := fun body d =>
  match body with
  | [] => (d, some LibError.EOF)
  | 0x81 :: rest =>
    match readBytesOrNull rest with
    | some (x, []) => (⟨x.map ProcessingDetails.mk⟩, none)
    | _ => (d, some typeError)
  | _ => (d, some typeError)

/-- Reads a small unsigned integer. -/
def sampleDecodeUint64 : Decoder Nat := fun body d =>
  match body with
  | [] => (d, some LibError.EOF)
  | _ =>
    match readSmallUint body with
    | some (n, []) => (n, none)
    | _ => (d, some typeError)

/-- Reads `[nonce]`. -/
def sampleDecodeNonce : Decoder NonceResp := fun body d =>
  match body with
  | [] => (d, some LibError.EOF)
  | 0x81 :: rest =>
    match readSmallUint rest with
    | some (n, []) => (⟨n⟩, none)
    | _ => (d, some typeError)
  | _ => (d, some typeError)

/-- Reads `[gasPrice]`. -/
def sampleDecodeGasPrice : Decoder GasPriceResp := fun body d =>
  match body with
  | [] => (d, some LibError.EOF)
  | 0x81 :: rest =>
    match readText rest with
    | some (s, []) => (⟨s⟩, none)
    | _ => (d, some typeError)
  | _ => (d, some typeError)

/-- A platform whose `uint64(f)` saturates: zero for negative values, the largest
uint64 for values too large. -/
def saturatingUint64 : Float64 → Nat
  | Float64.finite neg _ _ => if neg then 0 else 2 ^ 64 - 1
  | Float64.inf neg => if neg then 0 else 2 ^ 64 - 1

/-- A concrete library behaviour. -/
def sampleLib : Lib where
  pathJoin := fun xs => String.intercalate "/" xs
  urlString := fun u => u.Scheme ++ "://" ++ u.Host ++ u.Path
  NewRequestWithContext := fun _ method url body => Except.ok ⟨method, url, body, []⟩
  MarshalTx := fun tx => Except.ok tx.raw
  MarshalCall := fun c => Except.ok c.raw
  DecodeErrInfo := sampleDecodeErrInfo
  DecodeBalance := sampleDecodeBalance
  DecodeProof := sampleDecodeProof
  DecodeCall := sampleDecodeCall
  DecodeUint64 := sampleDecodeUint64
  DecodeNonce := sampleDecodeNonce
  DecodeGasPrice := sampleDecodeGasPrice
  uint64OutOfRange := saturatingUint64

/-- A client whose node answers every request with `rsp`. -/
def sampleClient (rsp : Response) : EvmClient :=
  { addr := ⟨"http", "localhost:8080", ""⟩, hc := fun _ => Except.ok rsp }

def sampleCtx : Context := ⟨0⟩

/-! ## Outcomes of a transport call

A call ends with the content of the destination and the returned error. -/

/-- The call succeeded with a value decoded from the body into the destination. -/
def DecodedValue {α : Type} (decode : Decoder α) (rsp : Response) (data : Option α)
    (r : Option α × Option Error) : Prop :=
  ∃ d, data = some d ∧ (decode rsp.Body d).2 = none ∧ r = (some (decode rsp.Body d).1, none)

/-- The call succeeded and no value was decoded: the destination was nil, or the body
ended before a value and that was allowed. -/
def SuccessWithoutValue {α : Type} (decode : Decoder α) (rsp : Response) (data : Option α)
    (allowEmptyResponse : Bool) (r : Option α × Option Error) : Prop :=
  (data = none ∧ r = (none, none)) ∨
  (allowEmptyResponse = true ∧ ∃ d failure, data = some d ∧
    (decode rsp.Body d).2 = some failure ∧ failure.isEOF = true ∧
    r = (some (decode rsp.Body d).1, none))

/-- The call failed with the not-found error. -/
def NotFoundOutcome {α : Type} (r : Option α × Option Error) : Prop :=
  r.2 = some Error.ErrNotFound

/-- The call failed with another error. -/
def ProtocolErrorOutcome {α : Type} (r : Option α × Option Error) : Prop :=
  ∃ err, r.2 = some err ∧ err ≠ Error.ErrNotFound

/-- Exactly one of the three outcomes: decoded value, not-found error, protocol
error. -/
def OneOfThreeOutcomes {α : Type} (decode : Decoder α) (rsp : Response) (data : Option α)
    (r : Option α × Option Error) : Prop :=
  (DecodedValue decode rsp data r ∨ NotFoundOutcome r ∨ ProtocolErrorOutcome r) ∧
  ¬ (DecodedValue decode rsp data r ∧ NotFoundOutcome r) ∧
  ¬ (DecodedValue decode rsp data r ∧ ProtocolErrorOutcome r) ∧
  ¬ (NotFoundOutcome r ∧ ProtocolErrorOutcome r)

/-- Exactly one of the four outcomes: decoded value, success without a value,
not-found error, protocol error. -/
def OneOfFourOutcomes {α : Type} (decode : Decoder α) (rsp : Response) (data : Option α)
    (allowEmptyResponse : Bool) (r : Option α × Option Error) : Prop :=
  (DecodedValue decode rsp data r ∨ SuccessWithoutValue decode rsp data allowEmptyResponse r ∨
    NotFoundOutcome r ∨ ProtocolErrorOutcome r) ∧
  ¬ (DecodedValue decode rsp data r ∧
      SuccessWithoutValue decode rsp data allowEmptyResponse r) ∧
  ¬ (DecodedValue decode rsp data r ∧ NotFoundOutcome r) ∧
  ¬ (DecodedValue decode rsp data r ∧ ProtocolErrorOutcome r) ∧
  ¬ (SuccessWithoutValue decode rsp data allowEmptyResponse r ∧ NotFoundOutcome r) ∧
  ¬ (SuccessWithoutValue decode rsp data allowEmptyResponse r ∧ ProtocolErrorOutcome r) ∧
  ¬ (NotFoundOutcome r ∧ ProtocolErrorOutcome r)

/-! ## Integer literals

The words "base-10 integer literal", written out, to compare `SetString10` with. -/

/-- Spec side: the value of a base-10 integer literal, which is an optional sign
followed by one or more decimal digits; `none` for any other string. -/
def base10Literal (s : String) : Option Int :=
  let signed : Bool × List Char :=
    match s.data with
    | '-' :: cs => (true, cs)
    | '+' :: cs => (false, cs)
    | cs => (false, cs)
  if signed.2.isEmpty || !signed.2.all Char.isDigit then none
  else
    let n : Nat := signed.2.foldl (fun acc c => acc * 10 + (c.toNat - 48)) 0
    some (if signed.1 then -(n : Int) else (n : Int))

/-! ## The orchestration command

This part embeds `execAddVarCmd` of `cli/alphabill/cmd/wallet/orchestration`. The
configuration types, the RPC client and the transaction builder are declared
outside the sources at hand; their fields are those the function reads, and their
functions are taken as they come. -/

def txTimeoutBlockCount : Nat := 10

/-- A `clitypes.WalletConfig`, kept abstract. -/
structure WalletConfig where
  home : String
  deriving DecidableEq, Repr

/-- The fields of `clitypes.OrchestrationConfig` that the command reads. -/
structure OrchestrationConfig where
  WalletConfig : WalletConfig
  RpcUrl : String
  Key : Nat
  deriving DecidableEq, Repr

/-- The fields of `clitypes.AddVarCmdConfig` that the command reads. -/
structure AddVarCmdConfig where
  OrchestrationConfig : OrchestrationConfig
  PartitionID : Nat
  ShardID : Bytes
  VarFilePath : String
  deriving DecidableEq, Repr

/-- A `cobra.Command`, as far as the command uses it: its context and its flags. -/
structure Command where
  ctx : Context
  flags : List (String × String)
  deriving DecidableEq, Repr

/-- An account manager, kept abstract. -/
structure AccountManager where
  dir : String
  deriving DecidableEq, Repr

/-- An `account.AccountKey`, kept abstract. -/
structure AccountKey where
  raw : Bytes
  deriving DecidableEq, Repr

/-- The orchestration partition client, kept abstract. -/
structure OrchestrationClient where
  url : String
  deriving DecidableEq, Repr

/-- An `orchestration.ValidatorAssignmentRecord`, kept abstract. -/
structure ValidatorAssignmentRecord where
  raw : Bytes
  deriving DecidableEq, Repr

/-- The fields of the partition description record that the command reads. -/
structure PartitionDescriptionRecord where
  NetworkID : Nat
  PartitionID : Nat
  deriving DecidableEq, Repr

/-- The round information of the node; the command reads the round number, a
uint64. -/
structure RoundInfo where
  RoundNumber : Nat
  deriving DecidableEq, Repr

/-- What `execAddVarCmd` calls outside itself, with whatever behaviour it has.
`Order` is the type of the transaction order that the builder makes and the node
confirms. -/
structure AddVarEnv (Order : Type) where
  /-- Stands for `cliaccount.LoadExistingAccountManager`. -/
  LoadExistingAccountManager : WalletConfig → Except LibError AccountManager
  /-- Stands for `am.GetAccountKey`. -/
  GetAccountKey : AccountManager → Nat → Except LibError AccountKey
  /-- Stands for `args.BuildRpcUrl`. -/
  BuildRpcUrl : String → String
  /-- Stands for `client.NewOrchestrationPartitionClient`. -/
  NewOrchestrationPartitionClient : Context → String → Except LibError OrchestrationClient
  /-- Stands for `util.ReadJsonFile` into a validator assignment record. -/
  ReadJsonFile : String → Except LibError ValidatorAssignmentRecord
  /-- Stands for `orcClient.PartitionDescription`. -/
  PartitionDescription : OrchestrationClient → Context →
    Except LibError PartitionDescriptionRecord
  /-- Stands for `orchestration.VarUnitType`. -/
  VarUnitType : Nat
  /-- Stands for `orchestration.PrndSh`, the seed of the unit id. -/
  PrndSh : Nat → Bytes → Bytes
  /-- Stands for `pdr.ComposeUnitID`. -/
  ComposeUnitID : PartitionDescriptionRecord → Bytes → Nat → Bytes → Except LibError Bytes
  /-- Stands for `orcClient.GetRoundInfo`. -/
  GetRoundInfo : OrchestrationClient → Context → Except LibError RoundInfo
  /-- Stands for `args.ParseMaxFeeFlag`. -/
  ParseMaxFeeFlag : Command → Except LibError Nat
  /-- Stands for `txbuilder.NewAddVarTx`: record, network, partition, unit id, timeout
  round, maximum fee, signing key. -/
  NewAddVarTx : ValidatorAssignmentRecord → Nat → Nat → Bytes → Nat → Nat → AccountKey →
    Except LibError Order
  /-- Stands for `orcClient.ConfirmTransaction`. -/
  ConfirmTransaction : OrchestrationClient → Context → Order → Except LibError Unit

/-- Embeds `execAddVarCmd`: the returned error, `none` for nil. The sums on uint64
(`Key - 1`, `RoundNumber + txTimeoutBlockCount`) wrap at `2 ^ 64`. The line printed
on success is left out. -/
def execAddVarCmd {Order : Type} (env : AddVarEnv Order) (cmd : Command)
    (config : AddVarCmdConfig) : Option Error :=
  let walletConfig := config.OrchestrationConfig.WalletConfig
  match env.LoadExistingAccountManager walletConfig with
  | Except.error err => some (Error.wrapf "failed to load account manager: " (Error.lib err))
  | Except.ok am =>
  match env.GetAccountKey am ((config.OrchestrationConfig.Key + 2 ^ 64 - 1) % 2 ^ 64) with
  | Except.error err => some (Error.wrapf "failed to load account key: " (Error.lib err))
  | Except.ok ac =>
  let rpcUrl := env.BuildRpcUrl config.OrchestrationConfig.RpcUrl
  match env.NewOrchestrationPartitionClient cmd.ctx rpcUrl with
  | Except.error err => some (Error.wrapf "failed to create rpc client: " (Error.lib err))
  | Except.ok orcClient =>
  match env.ReadJsonFile config.VarFilePath with
  | Except.error err => some (Error.wrapf "failed to load var file: " (Error.lib err))
  | Except.ok varFile =>
  match env.PartitionDescription orcClient cmd.ctx with
  | Except.error err => some (Error.wrapf "loading Partition Description: " (Error.lib err))
  | Except.ok pdr =>
  match env.ComposeUnitID pdr config.ShardID env.VarUnitType
      (env.PrndSh config.PartitionID config.ShardID) with
  | Except.error err => some (Error.wrapf "creating unit id: " (Error.lib err))
  | Except.ok unitID =>
  match env.GetRoundInfo orcClient cmd.ctx with
  | Except.error err => some (Error.wrapf "failed to fetch round info: " (Error.lib err))
  | Except.ok roundInfo =>
  let timeout := (roundInfo.RoundNumber + txTimeoutBlockCount) % 2 ^ 64
  match env.ParseMaxFeeFlag cmd with
  | Except.error err => some (Error.lib err)
  | Except.ok maxFee =>
  match env.NewAddVarTx varFile pdr.NetworkID pdr.PartitionID unitID timeout maxFee ac with
  | Except.error err =>
    some (Error.wrapf "failed to create \x27addVar\x27 tx: " (Error.lib err))
  | Except.ok txo =>
  match env.ConfirmTransaction orcClient cmd.ctx txo with
  | Except.error err => some (Error.wrapf "failed to send tx: " (Error.lib err))
  | Except.ok _ => none

/-- The end of `execAddVarCmd`, from the result of the builder on: a failed build is
returned as an error, a built order is sent for confirmation. It serves to say what
the builder was called with. -/
def afterBuild {Order : Type} (env : AddVarEnv Order) (orcClient : OrchestrationClient)
    (cmd : Command) (built : Except LibError Order) : Option Error :=
  match built with
  | Except.error err =>
    some (Error.wrapf "failed to create \x27addVar\x27 tx: " (Error.lib err))
  | Except.ok txo =>
    match env.ConfirmTransaction orcClient cmd.ctx txo with
    | Except.error err => some (Error.wrapf "failed to send tx: " (Error.lib err))
    | Except.ok _ => none

/-- What the builder of the sample environment keeps of its arguments. -/
structure BuiltOrder where
  NetworkID : Nat
  PartitionID : Nat
  UnitID : Bytes
  Timeout : Nat
  MaxFee : Nat
  deriving DecidableEq, Repr

/-- A concrete environment: every step succeeds, the node is at round `round`, the
builder keeps its arguments, and the node refuses an order whose timeout round is not
after its own round. -/
def sampleAddVarEnv (round : Nat) : AddVarEnv BuiltOrder where
  LoadExistingAccountManager := fun w => Except.ok ⟨w.home⟩
  GetAccountKey := fun _ _ => Except.ok ⟨[1]⟩
  BuildRpcUrl := fun u => "http://" ++ u
  NewOrchestrationPartitionClient := fun _ u => Except.ok ⟨u⟩
  ReadJsonFile := fun _ => Except.ok ⟨[]⟩
  PartitionDescription := fun _ _ => Except.ok ⟨3, 4⟩
  VarUnitType := 1
  PrndSh := fun _ shard => shard
  ComposeUnitID := fun _ shard _ seed => Except.ok (shard ++ seed)
  GetRoundInfo := fun _ _ => Except.ok ⟨round⟩
  ParseMaxFeeFlag := fun _ => Except.ok 10
  NewAddVarTx := fun _ network partition unitID timeout maxFee _ =>
    Except.ok ⟨network, partition, unitID, timeout, maxFee⟩
  ConfirmTransaction := fun _ _ txo =>
    if round < txo.Timeout then Except.ok ()
    else Except.error (LibError.other "transaction has timed out")

def sampleCommand : Command := ⟨sampleCtx, []⟩

def sampleAddVarConfig : AddVarCmdConfig :=
  { OrchestrationConfig := { WalletConfig := ⟨"wallet"⟩, RpcUrl := "localhost:28866", Key := 1 },
    PartitionID := 4, ShardID := [], VarFilePath := "var.json" }

/-- The `uint64(f)` of the Go toolchain on amd64 for a value that does not fit, which the
language leaves to the implementation. Values from `2 ^ 63`
up are converted as `int64(f - 2 ^ 63) | 2 ^ 63`, and an `int64` conversion out of
range gives `-2 ^ 63`: the result is `2 ^ 63` for a value of `2 ^ 64` or more and for
infinities. A negative value is converted as `int64(f)` and read as unsigned. -/
def amd64Uint64 : Float64 → Nat
  | Float64.finite neg m e =>
    if neg then
      if truncMag m e ≤ 2 ^ 63 then 2 ^ 64 - truncMag m e else 2 ^ 63
    else 2 ^ 63
  | Float64.inf _ => 2 ^ 63

/-! ## Theorems: WeiToAlpha -/

/-- Where `uint64(f)` is defined by the language, `WeiToAlpha` does not depend on the
platform. -/
theorem WeiToAlpha_of_defined {impl : Float64 → Nat} {wei : Int} {t : Nat}
    (h : (weiToAlphaFloat wei).toUint64? = some t) : WeiToAlpha impl wei = t := by
  simp [WeiToAlpha, Float64.toUint64, h]

/-- The halving count brackets its argument between two powers of two. -/
theorem log2Fuel_spec : ∀ (fuel n : Nat), 0 < n → n ≤ fuel →
    2 ^ log2Fuel fuel n ≤ n ∧ n < 2 ^ (log2Fuel fuel n + 1) := by
  intro fuel
  induction fuel with
  | zero =>
    intro n hn hle
    omega
  | succ fuel ih =>
    intro n hn hle
    unfold log2Fuel
    by_cases h2 : n < 2
    · rw [if_pos h2]
      constructor
      · simpa using hn
      · simpa using h2
    · rw [if_neg h2]
      obtain ⟨hlo, hhi⟩ := ih (n / 2) (by omega) (by omega)
      rw [pow_succ, pow_succ]
      constructor
      · omega
      · rw [pow_succ] at hhi
        omega

/-- For positive `n`, `2 ^ log2Floor n ≤ n < 2 ^ (log2Floor n + 1)`. -/
theorem log2Floor_spec (n : Nat) (hn : 0 < n) :
    2 ^ log2Floor n ≤ n ∧ n < 2 ^ (log2Floor n + 1) :=
  log2Fuel_spec n n hn (le_refl n)

/-- The rounded quotient is the floor or one more, the latter only from one half up. -/
theorem roundHalfEven_cases (num den : Nat) :
    roundHalfEven num den = num / den ∨
    (roundHalfEven num den = num / den + 1 ∧ den ≤ 2 * (num % den)) := by
  unfold roundHalfEven
  dsimp only
  split_ifs <;> first | (left; rfl) | (right; exact ⟨rfl, by omega⟩)

/-- The decimal division by `alpha2Wei` is exact: `w / 10^10` is `w * 10^6` at
sixteen decimal places. -/
theorem Div_alpha2Wei (w : Nat) :
    (Decimal.ofBigInt (w : Int)).Div alpha2Wei = some ⟨((w * 10 ^ 6 : Nat) : Int), -16⟩ := by
  have hq : w * 1 * 10 ^ 16 / (10 ^ 10 * 1) = w * 10 ^ 6 := by
    have : w * 1 * 10 ^ 16 = w * 10 ^ 6 * (10 ^ 10 * 1) := by ring
    rw [this]
    exact Nat.mul_div_cancel _ (by decide)
  have hr : w * 1 * 10 ^ 16 % (10 ^ 10 * 1) = 0 := by
    have : w * 1 * 10 ^ 16 = w * 10 ^ 6 * (10 ^ 10 * 1) := by ring
    rw [this]
    exact Nat.mul_mod_left _ _
  have hnum : (Decimal.toFrac (Decimal.ofBigInt (w : Int))) = ((w : Int), 1) := by
    simp [Decimal.toFrac, Decimal.ofBigInt]
  have hden : Decimal.toFrac alpha2Wei = ((10 ^ 10 : Int), 1) := by
    simp [Decimal.toFrac, alpha2Wei]
  unfold Decimal.Div Decimal.DivRound
  simp only [hnum, hden, Decimal.DivisionPrecision]
  have h1 : ((10 : Int) ^ 10).natAbs = 10 ^ 10 := by decide
  simp only [Int.natAbs_ofNat, h1, hq, hr]
  simp

/-- The float64 that `WeiToAlpha` truncates, for a non-negative amount. -/
theorem weiToAlphaFloat_natCast (w : Nat) :
    weiToAlphaFloat (w : Int) =
      match roundToFloat64 (w * 10 ^ 6) (10 ^ 16) with
      | some (m, e) => Float64.finite false m e
      | none => Float64.inf false := by
  unfold weiToAlphaFloat
  simp only [Div_alpha2Wei]
  unfold Decimal.Float64
  have hfrac : Decimal.toFrac ⟨((w * 10 ^ 6 : Nat) : Int), -16⟩ =
      (((w * 10 ^ 6 : Nat) : Int), 10 ^ 16) := by
    simp [Decimal.toFrac]
  simp only [hfrac, Int.natAbs_ofNat]
  have hneg : decide (((w * 10 ^ 6 : Nat) : Int) < 0) = false := by
    simp
  rw [hneg]

/-- C1, the code at the least input where it leaves the floor
(`WeiToAlpha_eq_floor_below` covers every smaller one): for wei = 10485769999999999
the floor of wei / 10^10 is 1048576, and `WeiToAlpha` returns 1048577 on every
platform, so that `WeiToAlpha(w) * 10^10 ≤ w` fails there. The quotient
1048576.9999999999 has no float64 nearer than 1048577. -/
theorem WeiToAlpha_exceeds_floor (impl : Float64 → Nat) :
    WeiToAlpha impl 10485769999999999 = 1048577 ∧
    (10485769999999999 : Int) / 10 ^ 10 = 1048576 ∧
    ¬ (WeiToAlpha impl 10485769999999999 * 10 ^ 10 ≤ 10485769999999999) := by
  have h : WeiToAlpha impl 10485769999999999 = 1048577 := WeiToAlpha_of_defined (by decide)
  refine ⟨h, by decide, ?_⟩
  rw [h]
  decide

/-- C2: on the test vectors of `TestConvertBalanceToAlpha` the conversion returns the
listed values, on every platform. -/
theorem WeiToAlpha_test_vectors (impl : Float64 → Nat) :
    WeiToAlpha impl 1 = 0 ∧
    WeiToAlpha impl 9999999999 = 0 ∧
    WeiToAlpha impl 10000000000 = 1 ∧
    WeiToAlpha impl 10000000001 = 1 ∧
    WeiToAlpha impl 19999999999 = 1 ∧
    WeiToAlpha impl 20000000000 = 2 ∧
    WeiToAlpha impl 120000000000 = 12 :=
  ⟨WeiToAlpha_of_defined (by decide), WeiToAlpha_of_defined (by decide),
    WeiToAlpha_of_defined (by decide), WeiToAlpha_of_defined (by decide),
    WeiToAlpha_of_defined (by decide), WeiToAlpha_of_defined (by decide),
    WeiToAlpha_of_defined (by decide)⟩

/-! ## Theorems: the fee check -/

/-- Once the request is built and the node has answered, `get` is `decodeResponse`
against status 200. -/
theorem get_of_response {α : Type} (L : Lib) (e : EvmClient) (decode : Decoder α)
    (ctx : Context) (addr : URL) (data : Option α) (allowEmptyResponse : Bool)
    (req : Request) (rsp : Response)
    (hreq : L.NewRequestWithContext ctx "GET" (L.urlString addr) none = Except.ok req)
    (hdo : e.hc (headerSet req "User-Agent" clientUserAgent) = Except.ok rsp) :
    e.get L decode ctx addr data allowEmptyResponse =
      decodeResponse L decode rsp StatusOK data allowEmptyResponse := by
  simp [EvmClient.get, hreq, hdo]

/-- Once the request is built and the node has answered, `post` is `decodeResponse`
against `okCode`, an empty body being allowed. -/
theorem post_of_response {α : Type} (L : Lib) (e : EvmClient) (decode : Decoder α)
    (ctx : Context) (u : URL) (body : Bytes) (okCode : Int) (rspData : Option α)
    (req : Request) (rsp : Response)
    (hreq : L.NewRequestWithContext ctx "POST" (L.urlString u) (some body) = Except.ok req)
    (hdo : e.hc (headerSet req userAgentHeader clientUserAgent) = Except.ok rsp) :
    e.post L decode ctx u body okCode rspData =
      decodeResponse L decode rsp okCode rspData true := by
  simp [EvmClient.post, hreq, hdo]

/-- The error of `decodeResponse` on a status that is neither the success status nor
404 is a fresh `fmt.Errorf` value. -/
theorem decodeResponse_other_status {α : Type} (L : Lib) (decode : Decoder α)
    (rsp : Response) (successStatus : Int) (data : Option α) (allowEmptyResponse : Bool)
    (h1 : rsp.StatusCode ≠ successStatus) (h2 : rsp.StatusCode ≠ StatusNotFound) :
    ∃ msg, decodeResponse L decode rsp successStatus data allowEmptyResponse =
      (data, some (Error.errorf msg)) := by
  unfold decodeResponse
  rw [if_neg h1, if_neg h2]
  dsimp only
  cases hd : (L.DecodeErrInfo rsp.Body ⟨""⟩).2 with
  | none => exact ⟨_, rfl⟩
  | some failure => exact ⟨_, rfl⟩

/-- On status 404 against another success status `decodeResponse` returns
`ErrNotFound` and leaves the destination alone. -/
theorem decodeResponse_not_found {α : Type} (L : Lib) (decode : Decoder α)
    (rsp : Response) (successStatus : Int) (data : Option α) (allowEmptyResponse : Bool)
    (h1 : rsp.StatusCode ≠ successStatus) (h2 : rsp.StatusCode = StatusNotFound) :
    decodeResponse L decode rsp successStatus data allowEmptyResponse =
      (data, some Error.ErrNotFound) := by
  unfold decodeResponse
  rw [if_neg h1, if_pos h2]

/-- On the success status a nil destination is left nil and nothing is read. -/
theorem decodeResponse_success_nil {α : Type} (L : Lib) (decode : Decoder α)
    (rsp : Response) (successStatus : Int) (allowEmptyResponse : Bool)
    (hs : rsp.StatusCode = successStatus) :
    decodeResponse L decode rsp successStatus none allowEmptyResponse = (none, none) := by
  unfold decodeResponse
  rw [if_pos hs]

/-- On the success status a body that decodes is a success. -/
theorem decodeResponse_success_decoded {α : Type} (L : Lib) (decode : Decoder α)
    (rsp : Response) (successStatus : Int) (d : α) (allowEmptyResponse : Bool)
    (hs : rsp.StatusCode = successStatus) (hd : (decode rsp.Body d).2 = none) :
    decodeResponse L decode rsp successStatus (some d) allowEmptyResponse =
      (some (decode rsp.Body d).1, none) := by
  unfold decodeResponse
  rw [if_pos hs]
  dsimp only
  rw [hd]

/-- On the success status a body that fails to decode is an error, unless the failure
is the end of input and an empty response is allowed. -/
theorem decodeResponse_success_failed {α : Type} (L : Lib) (decode : Decoder α)
    (rsp : Response) (successStatus : Int) (d : α) (allowEmptyResponse : Bool)
    (failure : LibError)
    (hs : rsp.StatusCode = successStatus) (hd : (decode rsp.Body d).2 = some failure) :
    decodeResponse L decode rsp successStatus (some d) allowEmptyResponse =
      if !failure.isEOF || !allowEmptyResponse then
        (some (decode rsp.Body d).1,
          some (Error.wrapf "failed to decode response body: " (Error.lib failure)))
      else (some (decode rsp.Body d).1, none) := by
  unfold decodeResponse
  rw [if_pos hs]
  dsimp only
  rw [hd]

/-- C5: for a response with status 404, whatever its body, `get` and `post` (that is
`decodeResponse` against success status 200 or 202) return exactly `ErrNotFound`; for
a status that is neither the success status nor 404 the error they return is not
`ErrNotFound`, nor does it wrap it. -/
theorem status_404_is_ErrNotFound {α : Type} (L : Lib) (e : EvmClient) (decode : Decoder α)
    (ctx : Context) (addr : URL) (body : Bytes) (okCode : Int) (data : Option α)
    (allowEmptyResponse : Bool) (rsp : Response)
    (hok : okCode = StatusOK ∨ okCode = StatusAccepted) :
    (∀ req, L.NewRequestWithContext ctx "GET" (L.urlString addr) none = Except.ok req →
      e.hc (headerSet req "User-Agent" clientUserAgent) = Except.ok rsp →
      (rsp.StatusCode = StatusNotFound →
        (e.get L decode ctx addr data allowEmptyResponse).2 = some Error.ErrNotFound) ∧
      (rsp.StatusCode ≠ StatusOK → rsp.StatusCode ≠ StatusNotFound →
        ∃ err, (e.get L decode ctx addr data allowEmptyResponse).2 = some err ∧
          err ≠ Error.ErrNotFound ∧ err.isErrNotFound = false)) ∧
    (∀ req, L.NewRequestWithContext ctx "POST" (L.urlString addr) (some body) = Except.ok req →
      e.hc (headerSet req userAgentHeader clientUserAgent) = Except.ok rsp →
      (rsp.StatusCode = StatusNotFound →
        (e.post L decode ctx addr body okCode data).2 = some Error.ErrNotFound) ∧
      (rsp.StatusCode ≠ okCode → rsp.StatusCode ≠ StatusNotFound →
        ∃ err, (e.post L decode ctx addr body okCode data).2 = some err ∧
          err ≠ Error.ErrNotFound ∧ err.isErrNotFound = false)) := by
  have key : ∀ (s : Int) (allow : Bool), (s = StatusOK ∨ s = StatusAccepted) →
      (rsp.StatusCode = StatusNotFound →
        (decodeResponse L decode rsp s data allow).2 = some Error.ErrNotFound) ∧
      (rsp.StatusCode ≠ s → rsp.StatusCode ≠ StatusNotFound →
        ∃ err, (decodeResponse L decode rsp s data allow).2 = some err ∧
          err ≠ Error.ErrNotFound ∧ err.isErrNotFound = false) := by
    intro s allow hs
    constructor
    · intro h404
      have hne : rsp.StatusCode ≠ s := by
        rw [h404]
        rcases hs with hs | hs <;> rw [hs] <;> decide
      rw [decodeResponse_not_found L decode rsp s data allow hne h404]
    · intro h1 h2
      obtain ⟨msg, hmsg⟩ := decodeResponse_other_status L decode rsp s data allow h1 h2
      exact ⟨Error.errorf msg, by rw [hmsg], by simp, rfl⟩
  constructor
  · intro req hreq hdo
    rw [get_of_response L e decode ctx addr data allowEmptyResponse req rsp hreq hdo]
    exact key StatusOK allowEmptyResponse (Or.inl rfl)
  · intro req hreq hdo
    rw [post_of_response L e decode ctx addr body okCode data req rsp hreq hdo]
    exact key okCode true hok

/-- C5 at work: a node answering 404 with an error body; `get` against 200 returns
`ErrNotFound`. -/
theorem status_404_is_ErrNotFound_witness :
    (StatusAccepted = StatusOK ∨ StatusAccepted = StatusAccepted) ∧
    ((sampleClient ⟨404, "404 Not Found", [0x81, 0x63, 98, 97, 100]⟩).get sampleLib
      sampleLib.DecodeBalance sampleCtx ⟨"http", "localhost:8080", "/api/v1/evm/balance/01"⟩
      (some ⟨"", 0⟩) false).2 = some Error.ErrNotFound :=
  ⟨Or.inr rfl,
    ((status_404_is_ErrNotFound sampleLib
      (sampleClient ⟨404, "404 Not Found", [0x81, 0x63, 98, 97, 100]⟩)
      sampleLib.DecodeBalance sampleCtx ⟨"http", "localhost:8080", "/api/v1/evm/balance/01"⟩
      [] StatusAccepted (some ⟨"", 0⟩) false ⟨404, "404 Not Found", [0x81, 0x63, 98, 97, 100]⟩
      (Or.inr rfl)).1 _ rfl rfl).1 rfl⟩

/-- C6: on a status that is neither the success status nor 404, the error of
`decodeResponse` reads as the status line, followed by a comma, a blank and the error
string when the body decodes as `[errorString]`, and as the status line alone when
the body does not decode. -/
theorem decodeResponse_error_text {α : Type} (L : Lib) (decode : Decoder α)
    (rsp : Response) (successStatus : Int) (data : Option α) (allowEmptyResponse : Bool)
    (h1 : rsp.StatusCode ≠ successStatus) (h2 : rsp.StatusCode ≠ StatusNotFound) :
    (∀ info, L.DecodeErrInfo rsp.Body ⟨""⟩ = (info, none) →
      ∃ err, (decodeResponse L decode rsp successStatus data allowEmptyResponse).2 = some err ∧
        err.message = rsp.Status ++ ", " ++ info.Err) ∧
    (∀ info failure, L.DecodeErrInfo rsp.Body ⟨""⟩ = (info, some failure) →
      ∃ err, (decodeResponse L decode rsp successStatus data allowEmptyResponse).2 = some err ∧
        err.message = rsp.Status) := by
  constructor
  · intro info hinfo
    refine ⟨Error.errorf (rsp.Status ++ ", " ++ info.Err), ?_, rfl⟩
    unfold decodeResponse
    rw [if_neg h1, if_neg h2]
    simp [hinfo]
  · intro info failure hinfo
    refine ⟨Error.errorf rsp.Status, ?_, rfl⟩
    unfold decodeResponse
    rw [if_neg h1, if_neg h2]
    simp [hinfo]

/-- C6 at work: status 500 with body `["bad"]`. -/
theorem decodeResponse_error_text_witness :
    ∃ err, (decodeResponse sampleLib sampleLib.DecodeBalance
        ⟨500, "500 Internal Server Error", [0x81, 0x63, 98, 97, 100]⟩ StatusOK
        (some ⟨"", 0⟩) false).2 = some err ∧
      err.message = "500 Internal Server Error" ++ ", " ++ "bad" :=
  (decodeResponse_error_text sampleLib sampleLib.DecodeBalance
    ⟨500, "500 Internal Server Error", [0x81, 0x63, 98, 97, 100]⟩ StatusOK
    (some ⟨"", 0⟩) false (by decide) (by decide)).1 ⟨"bad"⟩ (by decide)

/-! ## Theorems: the operations -/

/-- C4: `GetFeeCreditBill` returns (no bill, no error) exactly when the balance lookup
failed with an error that is `ErrNotFound`; every other lookup failure comes back as
an error wrapping it, with no bill; a lookup that succeeded never gives (no bill, no
error). -/
theorem GetFeeCreditBill_no_bill_iff (L : Lib) (e : EvmClient) (ctx : Context)
    (unitID : Bytes) :
    (e.GetFeeCreditBill L ctx unitID = (none, none) ↔
      ∃ err, (e.GetBalance L ctx unitID).2.2 = some err ∧ err.isErrNotFound = true) ∧
    (∀ err, (e.GetBalance L ctx unitID).2.2 = some err → err.isErrNotFound = false →
      e.GetFeeCreditBill L ctx unitID = (none, some (Error.wrapf
        ("failed to read blance for addr " ++ hexutilEncode unitID ++ ": ") err))) ∧
    ((e.GetBalance L ctx unitID).2.2 = none →
      e.GetFeeCreditBill L ctx unitID ≠ (none, none)) := by
  refine ⟨?_, ?_, ?_⟩
  · unfold EvmClient.GetFeeCreditBill
    dsimp only
    cases hb : (e.GetBalance L ctx unitID).2.2 with
    | none =>
      cases hp : SetString10 (e.GetBalance L ctx unitID).1 <;> simp
    | some err =>
      cases hn : err.isErrNotFound <;> simp [hn]
  · intro err hb hn
    unfold EvmClient.GetFeeCreditBill
    dsimp only
    rw [hb]
    simp [hn]
  · intro hb
    unfold EvmClient.GetFeeCreditBill
    dsimp only
    rw [hb]
    cases hp : SetString10 (e.GetBalance L ctx unitID).1 <;> simp

/-- C9: once the order is encoded and the node has answered, `PostTransaction` succeeds
exactly when the status is 202, whatever the body; on any other status, 200 included,
it returns an error, and on 404 that error wraps `ErrNotFound`. -/
theorem PostTransaction_accepted_iff (L : Lib) (e : EvmClient) (ctx : Context)
    (tx : TransactionOrder) (b : Bytes) (req : Request) (rsp : Response)
    (hm : L.MarshalTx tx = Except.ok b)
    (hreq : L.NewRequestWithContext ctx "POST"
      (L.urlString (e.getURL L [apiPathPrefix, "transactions"])) (some b) = Except.ok req)
    (hdo : e.hc (headerSet req userAgentHeader clientUserAgent) = Except.ok rsp) :
    (e.PostTransaction L ctx tx = none ↔ rsp.StatusCode = StatusAccepted) ∧
    (rsp.StatusCode ≠ StatusAccepted → ∃ err, e.PostTransaction L ctx tx =
      some (Error.wrapf "transaction send failed: " err)) ∧
    (rsp.StatusCode = StatusOK → e.PostTransaction L ctx tx ≠ none) ∧
    (rsp.StatusCode = StatusNotFound →
      e.PostTransaction L ctx tx =
        some (Error.wrapf "transaction send failed: " Error.ErrNotFound) ∧
      ∀ err, e.PostTransaction L ctx tx = some err → err.isErrNotFound = true) ∧
    (∀ (e2 : EvmClient) (body : Bytes), e2.addr = e.addr →
      e2.hc (headerSet req userAgentHeader clientUserAgent) =
        Except.ok { rsp with Body := body } →
      (e2.PostTransaction L ctx tx = none ↔ e.PostTransaction L ctx tx = none)) := by
  have main : ∀ (e1 : EvmClient) (r1 : Response), e1.addr = e.addr →
      e1.hc (headerSet req userAgentHeader clientUserAgent) = Except.ok r1 →
      e1.PostTransaction L ctx tx =
        match (decodeResponse L (fun _ (d : Unit) => (d, none)) r1 StatusAccepted none true).2
        with
        | some err => some (Error.wrapf "transaction send failed: " err)
        | none => none := by
    intro e1 r1 haddr h1
    have hreq1 : L.NewRequestWithContext ctx "POST"
        (L.urlString (e1.getURL L [apiPathPrefix, "transactions"])) (some b) = Except.ok req := by
      rw [← hreq]
      simp [EvmClient.getURL, haddr]
    unfold EvmClient.PostTransaction
    rw [hm]
    dsimp only
    rw [post_of_response L e1 _ ctx _ b StatusAccepted none req r1 hreq1 h1]
  have acc : ∀ (e1 : EvmClient) (r1 : Response), e1.addr = e.addr →
      e1.hc (headerSet req userAgentHeader clientUserAgent) = Except.ok r1 →
      (e1.PostTransaction L ctx tx = none ↔ r1.StatusCode = StatusAccepted) := by
    intro e1 r1 haddr h1
    rw [main e1 r1 haddr h1]
    by_cases hs : r1.StatusCode = StatusAccepted
    · rw [decodeResponse_success_nil L _ r1 StatusAccepted true hs]
      simp [hs]
    · by_cases h404 : r1.StatusCode = StatusNotFound
      · rw [decodeResponse_not_found L _ r1 StatusAccepted none true hs h404]
        simp [hs]
      · obtain ⟨msg, hmsg⟩ := decodeResponse_other_status L
          (fun _ (d : Unit) => (d, none)) r1 StatusAccepted none true hs h404
        rw [hmsg]
        simp [hs]
  have hne : rsp.StatusCode ≠ StatusAccepted → ∃ err, e.PostTransaction L ctx tx =
      some (Error.wrapf "transaction send failed: " err) := by
    intro hs
    rw [main e rsp rfl hdo]
    by_cases h404 : rsp.StatusCode = StatusNotFound
    · rw [decodeResponse_not_found L _ rsp StatusAccepted none true hs h404]
      exact ⟨_, rfl⟩
    · obtain ⟨msg, hmsg⟩ := decodeResponse_other_status L
        (fun _ (d : Unit) => (d, none)) rsp StatusAccepted none true hs h404
      rw [hmsg]
      exact ⟨_, rfl⟩
  refine ⟨acc e rsp rfl hdo, hne, ?_, ?_, ?_⟩
  · intro h200 hnone
    have h := (acc e rsp rfl hdo).1 hnone
    rw [h200] at h
    exact absurd h (by decide)
  · intro h404
    have hs : rsp.StatusCode ≠ StatusAccepted := by
      rw [h404]
      decide
    have hval : e.PostTransaction L ctx tx =
        some (Error.wrapf "transaction send failed: " Error.ErrNotFound) := by
      rw [main e rsp rfl hdo, decodeResponse_not_found L _ rsp StatusAccepted none true hs h404]
    refine ⟨hval, ?_⟩
    intro err herr
    rw [hval] at herr
    cases herr
    rfl
  · intro e2 body haddr h2
    rw [acc e2 _ haddr h2, acc e rsp rfl hdo]

/-- C9 at work: a node answering 200 to the posted order; the call fails. -/
theorem PostTransaction_accepted_iff_witness :
    (sampleClient ⟨200, "200 OK", []⟩).PostTransaction sampleLib sampleCtx ⟨[0x80]⟩ ≠ none :=
  (PostTransaction_accepted_iff sampleLib (sampleClient ⟨200, "200 OK", []⟩) sampleCtx
    ⟨[0x80]⟩ [0x80] _ ⟨200, "200 OK", []⟩ rfl rfl rfl).2.2.1 rfl

/-- What `GetTxProof` does with the outcome of its `get`. -/
theorem GetTxProof_of_get (L : Lib) (e : EvmClient) (ctx : Context) (unitID txHash : Bytes)
    (r : Option ProofResp × Option Error)
    (hr : e.get L L.DecodeProof ctx
      (e.getURL L [apiPathPrefix, "transactions", hexEncodeToString txHash])
      (some ⟨none, none⟩) false = r) :
    e.GetTxProof L ctx unitID txHash =
      match r.2 with
      | some err =>
        if err.isErrNotFound then (none, none)
        else (none, some (Error.wrapf "get tx proof request failed: " err))
      | none =>
        (some { TxRecord := (r.1.getD ⟨none, none⟩).TxRecord,
                TxProof := (r.1.getD ⟨none, none⟩).TxProof }, none) := by
  subst hr
  rfl

/-- C10: `GetTxProof` on the node's answers, for every transaction hash. On 404 it
returns (no proof, no error). On 200 with a body that decodes as `[TxRecord, TxProof]`
it returns a record-proof holding that record and that proof. On every other outcome
(200 with a body that does not decode, empty included; any other status; a request
that could not be built or sent) it returns an error and no proof. The unit id plays
no part. -/
theorem GetTxProof_outcomes (L : Lib) (e : EvmClient) (ctx : Context)
    (unitID txHash : Bytes) :
    (∀ req rsp,
      L.NewRequestWithContext ctx "GET" (L.urlString
        (e.getURL L [apiPathPrefix, "transactions", hexEncodeToString txHash])) none =
        Except.ok req →
      e.hc (headerSet req "User-Agent" clientUserAgent) = Except.ok rsp →
      (rsp.StatusCode = StatusNotFound → e.GetTxProof L ctx unitID txHash = (none, none)) ∧
      (rsp.StatusCode = StatusOK → ∀ record proof,
        L.DecodeProof rsp.Body ⟨none, none⟩ = (⟨record, proof⟩, none) →
        e.GetTxProof L ctx unitID txHash =
          (some { TxRecord := record, TxProof := proof }, none)) ∧
      (rsp.StatusCode = StatusOK → ∀ failure,
        (L.DecodeProof rsp.Body ⟨none, none⟩).2 = some failure →
        ∃ err, e.GetTxProof L ctx unitID txHash = (none, some err)) ∧
      (rsp.StatusCode ≠ StatusOK → rsp.StatusCode ≠ StatusNotFound →
        ∃ err, e.GetTxProof L ctx unitID txHash = (none, some err))) ∧
    (∀ failure,
      L.NewRequestWithContext ctx "GET" (L.urlString
        (e.getURL L [apiPathPrefix, "transactions", hexEncodeToString txHash])) none =
        Except.error failure →
      ∃ err, e.GetTxProof L ctx unitID txHash = (none, some err)) ∧
    (∀ req failure,
      L.NewRequestWithContext ctx "GET" (L.urlString
        (e.getURL L [apiPathPrefix, "transactions", hexEncodeToString txHash])) none =
        Except.ok req →
      e.hc (headerSet req "User-Agent" clientUserAgent) = Except.error failure →
      ∃ err, e.GetTxProof L ctx unitID txHash = (none, some err)) ∧
    (∀ otherUnitID, e.GetTxProof L ctx otherUnitID txHash = e.GetTxProof L ctx unitID txHash) := by
  refine ⟨?_, ?_, ?_, ?_⟩
  · intro req rsp hreq hdo
    have hget := get_of_response L e L.DecodeProof ctx
      (e.getURL L [apiPathPrefix, "transactions", hexEncodeToString txHash])
      (some ⟨none, none⟩) false req rsp hreq hdo
    refine ⟨?_, ?_, ?_, ?_⟩
    · intro h404
      have hs : rsp.StatusCode ≠ StatusOK := by
        rw [h404]
        decide
      rw [decodeResponse_not_found L _ rsp StatusOK _ false hs h404] at hget
      rw [GetTxProof_of_get L e ctx unitID txHash _ hget]
      rfl
    · intro h200 record proof hd
      have hd2 : (L.DecodeProof rsp.Body ⟨none, none⟩).2 = none := by rw [hd]
      rw [decodeResponse_success_decoded L _ rsp StatusOK _ false h200 hd2, hd] at hget
      rw [GetTxProof_of_get L e ctx unitID txHash _ hget]
      rfl
    · intro h200 failure hd
      rw [decodeResponse_success_failed L _ rsp StatusOK _ false failure h200 hd] at hget
      simp only [Bool.not_false, Bool.or_true, if_true] at hget
      rw [GetTxProof_of_get L e ctx unitID txHash _ hget]
      exact ⟨_, rfl⟩
    · intro h1 h2
      obtain ⟨msg, hmsg⟩ := decodeResponse_other_status L L.DecodeProof rsp StatusOK
        (some ⟨none, none⟩) false h1 h2
      rw [hmsg] at hget
      rw [GetTxProof_of_get L e ctx unitID txHash _ hget]
      exact ⟨_, rfl⟩
  · intro failure hreq
    refine ⟨Error.wrapf "get tx proof request failed: "
      (Error.wrapf "failed to build http request: " (Error.lib failure)), ?_⟩
    simp [EvmClient.GetTxProof, EvmClient.get, hreq, Error.isErrNotFound]
  · intro req failure hreq hdo
    refine ⟨Error.wrapf "get tx proof request failed: "
      (Error.wrapf "request to rpc node failed: " (Error.lib failure)), ?_⟩
    simp [EvmClient.GetTxProof, EvmClient.get, hreq, hdo, Error.isErrNotFound]
  · intro otherUnitID
    rfl

/-- The four outcomes of `decodeResponse`, and the destination on a status error. -/
theorem decodeResponse_outcomes {α : Type} (L : Lib) (decode : Decoder α) (rsp : Response)
    (successStatus : Int) (data : Option α) (allowEmptyResponse : Bool) :
    (DecodedValue decode rsp data
        (decodeResponse L decode rsp successStatus data allowEmptyResponse) ∨
      SuccessWithoutValue decode rsp data allowEmptyResponse
        (decodeResponse L decode rsp successStatus data allowEmptyResponse) ∨
      NotFoundOutcome (decodeResponse L decode rsp successStatus data allowEmptyResponse) ∨
      ProtocolErrorOutcome
        (decodeResponse L decode rsp successStatus data allowEmptyResponse)) ∧
    (rsp.StatusCode ≠ successStatus →
      (decodeResponse L decode rsp successStatus data allowEmptyResponse).2 ≠ none ∧
      (decodeResponse L decode rsp successStatus data allowEmptyResponse).1 = data) := by
  constructor
  · by_cases hs : rsp.StatusCode = successStatus
    · cases data with
      | none =>
        right; left; left
        exact ⟨rfl, decodeResponse_success_nil L decode rsp successStatus _ hs⟩
      | some d =>
        cases hd : (decode rsp.Body d).2 with
        | none =>
          left
          exact ⟨d, rfl, hd, decodeResponse_success_decoded L decode rsp successStatus d _ hs hd⟩
        | some failure =>
          have h := decodeResponse_success_failed L decode rsp successStatus d
            allowEmptyResponse failure hs hd
          by_cases hc : (!failure.isEOF || !allowEmptyResponse) = true
          · rw [if_pos hc] at h
            right; right; right
            exact ⟨_, by rw [h], by simp⟩
          · rw [if_neg hc] at h
            have hc2 : failure.isEOF = true ∧ allowEmptyResponse = true := by
              cases hE : failure.isEOF <;> cases hA : allowEmptyResponse <;> simp [hE, hA] at hc ⊢
            right; left; right
            exact ⟨hc2.2, d, failure, rfl, hd, hc2.1, h⟩
    · by_cases h404 : rsp.StatusCode = StatusNotFound
      · right; right; left
        unfold NotFoundOutcome
        rw [decodeResponse_not_found L decode rsp successStatus data _ hs h404]
      · right; right; right
        obtain ⟨msg, hmsg⟩ := decodeResponse_other_status L decode rsp successStatus data
          allowEmptyResponse hs h404
        exact ⟨_, by rw [hmsg], by simp⟩
  · intro hs
    by_cases h404 : rsp.StatusCode = StatusNotFound
    · rw [decodeResponse_not_found L decode rsp successStatus data _ hs h404]
      simp
    · obtain ⟨msg, hmsg⟩ := decodeResponse_other_status L decode rsp successStatus data
        allowEmptyResponse hs h404
      rw [hmsg]
      simp

/-- No two of the four outcomes hold together. -/
theorem outcomes_exclusive {α : Type} (decode : Decoder α) (rsp : Response)
    (data : Option α) (allowEmptyResponse : Bool) (r : Option α × Option Error) :
    ¬ (DecodedValue decode rsp data r ∧
        SuccessWithoutValue decode rsp data allowEmptyResponse r) ∧
    ¬ (DecodedValue decode rsp data r ∧ NotFoundOutcome r) ∧
    ¬ (DecodedValue decode rsp data r ∧ ProtocolErrorOutcome r) ∧
    ¬ (SuccessWithoutValue decode rsp data allowEmptyResponse r ∧ NotFoundOutcome r) ∧
    ¬ (SuccessWithoutValue decode rsp data allowEmptyResponse r ∧ ProtocolErrorOutcome r) ∧
    ¬ (NotFoundOutcome r ∧ ProtocolErrorOutcome r) := by
  have hA : DecodedValue decode rsp data r → r.2 = none := by
    rintro ⟨d, -, -, hr⟩
    rw [hr]
  have hB : SuccessWithoutValue decode rsp data allowEmptyResponse r → r.2 = none := by
    rintro (⟨-, hr⟩ | ⟨-, d, failure, -, -, -, hr⟩) <;> rw [hr]
  refine ⟨?_, ?_, ?_, ?_, ?_, ?_⟩
  · rintro ⟨⟨d, hd, hdec, -⟩, (⟨hnil, -⟩ | ⟨-, d2, failure, hd2, hdec2, -, -⟩)⟩
    · rw [hnil] at hd
      cases hd
    · rw [hd] at hd2
      cases hd2
      rw [hdec] at hdec2
      cases hdec2
  · rintro ⟨a, c⟩
    unfold NotFoundOutcome at c
    rw [hA a] at c
    cases c
  · rintro ⟨a, err, c, -⟩
    rw [hA a] at c
    cases c
  · rintro ⟨b, c⟩
    unfold NotFoundOutcome at c
    rw [hB b] at c
    cases c
  · rintro ⟨b, err, c, -⟩
    rw [hB b] at c
    cases c
  · rintro ⟨c, err, hd, hne⟩
    unfold NotFoundOutcome at c
    rw [c] at hd
    cases hd
    exact hne rfl

/-- C7 as stated fails twice. A node answers the `post` of `Call` with 200 and an
empty body: the call succeeds, the decoder having met the end of input, so the
outcome is none of decoded value, not-found error, protocol error. A node answers
the `get` of `GetBalance` with 200 and the body `["5", ""]`, whose second item is not
a number: the call fails, and the destination holds the balance "5". -/
theorem get_post_outcome_counterexample :
    ((sampleClient ⟨200, "200 OK", []⟩).post sampleLib sampleLib.DecodeCall sampleCtx
        ⟨"http", "localhost:8080", "/api/v1/evm/call"⟩ [0x80] StatusOK (some ⟨none⟩) =
        (some ⟨none⟩, none) ∧
      (sampleLib.DecodeCall [] ⟨none⟩).2 = some LibError.EOF ∧
      ¬ OneOfThreeOutcomes sampleLib.DecodeCall ⟨200, "200 OK", []⟩ (some ⟨none⟩)
        ((sampleClient ⟨200, "200 OK", []⟩).post sampleLib sampleLib.DecodeCall sampleCtx
          ⟨"http", "localhost:8080", "/api/v1/evm/call"⟩ [0x80] StatusOK (some ⟨none⟩))) ∧
    ((sampleClient ⟨200, "200 OK", [0x82, 0x61, 53, 0x60]⟩).get sampleLib
        sampleLib.DecodeBalance sampleCtx ⟨"http", "localhost:8080", "/api/v1/evm/balance/01"⟩
        (some ⟨"", 0⟩) false =
      (some ⟨"5", 0⟩, some (Error.wrapf "failed to decode response body: "
        (Error.lib typeError)))) := by
  have hpost : (sampleClient ⟨200, "200 OK", []⟩).post sampleLib sampleLib.DecodeCall sampleCtx
      ⟨"http", "localhost:8080", "/api/v1/evm/call"⟩ [0x80] StatusOK (some ⟨none⟩) =
      (some ⟨none⟩, none) := by decide
  refine ⟨⟨hpost, by decide, ?_⟩, by decide⟩
  rw [hpost]
  rintro ⟨(⟨d, hd, hdec, -⟩ | hnf | ⟨err, herr, -⟩), -⟩
  · cases hd
    revert hdec
    decide
  · cases hnf
  · cases herr

/-- C7, amended: when the node has answered a `get` with `rsp`, the outcome of that
`get` is exactly one of: a value decoded from the body into the destination; success
without a value (a nil destination, or an allowed empty body); the not-found error; a
protocol error; and when the status is not 200 the outcome is an error and the
destination is as the caller passed it. The same holds of a `post` that the node has
answered, against `okCode` and with the empty body allowed. The two calls are taken
each on its own request and response. A call whose request cannot be built or is not
answered ends in a protocol error with the destination as the caller passed it. -/
theorem get_post_outcomes {α : Type} (L : Lib) (e : EvmClient) (decode : Decoder α)
    (ctx : Context) (addr u : URL) (body : Bytes) (okCode : Int) (data : Option α)
    (allowEmptyResponse : Bool) :
    (∀ req rsp,
      L.NewRequestWithContext ctx "GET" (L.urlString addr) none = Except.ok req →
      e.hc (headerSet req "User-Agent" clientUserAgent) = Except.ok rsp →
      OneOfFourOutcomes decode rsp data allowEmptyResponse
        (e.get L decode ctx addr data allowEmptyResponse) ∧
      (rsp.StatusCode ≠ StatusOK →
        (e.get L decode ctx addr data allowEmptyResponse).2 ≠ none ∧
        (e.get L decode ctx addr data allowEmptyResponse).1 = data)) ∧
    (∀ req rsp,
      L.NewRequestWithContext ctx "POST" (L.urlString u) (some body) = Except.ok req →
      e.hc (headerSet req userAgentHeader clientUserAgent) = Except.ok rsp →
      OneOfFourOutcomes decode rsp data true (e.post L decode ctx u body okCode data) ∧
      (rsp.StatusCode ≠ okCode →
        (e.post L decode ctx u body okCode data).2 ≠ none ∧
        (e.post L decode ctx u body okCode data).1 = data)) ∧
    ((∃ failure, L.NewRequestWithContext ctx "GET" (L.urlString addr) none =
          Except.error failure) ∨
      (∃ req failure, L.NewRequestWithContext ctx "GET" (L.urlString addr) none =
          Except.ok req ∧
        e.hc (headerSet req "User-Agent" clientUserAgent) = Except.error failure) →
      ProtocolErrorOutcome (e.get L decode ctx addr data allowEmptyResponse) ∧
      (e.get L decode ctx addr data allowEmptyResponse).1 = data) ∧
    ((∃ failure, L.NewRequestWithContext ctx "POST" (L.urlString u) (some body) =
          Except.error failure) ∨
      (∃ req failure, L.NewRequestWithContext ctx "POST" (L.urlString u) (some body) =
          Except.ok req ∧
        e.hc (headerSet req userAgentHeader clientUserAgent) = Except.error failure) →
      ProtocolErrorOutcome (e.post L decode ctx u body okCode data) ∧
      (e.post L decode ctx u body okCode data).1 = data) := by
  refine ⟨?_, ?_, ?_, ?_⟩
  · intro req rsp hreq hdo
    rw [get_of_response L e decode ctx addr data allowEmptyResponse req rsp hreq hdo]
    have hg := decodeResponse_outcomes L decode rsp StatusOK data allowEmptyResponse
    exact ⟨⟨hg.1, outcomes_exclusive decode rsp data allowEmptyResponse _⟩, hg.2⟩
  · intro req rsp hreq hdo
    rw [post_of_response L e decode ctx u body okCode data req rsp hreq hdo]
    have hp := decodeResponse_outcomes L decode rsp okCode data true
    exact ⟨⟨hp.1, outcomes_exclusive decode rsp data true _⟩, hp.2⟩
  · rintro (⟨failure, hreq⟩ | ⟨req, failure, hreq, hdo⟩)
    · have hget : e.get L decode ctx addr data allowEmptyResponse =
          (data, some (Error.wrapf "failed to build http request: " (Error.lib failure))) := by
        simp [EvmClient.get, hreq]
      rw [hget]
      exact ⟨⟨_, rfl, by simp⟩, rfl⟩
    · have hget : e.get L decode ctx addr data allowEmptyResponse =
          (data, some (Error.wrapf "request to rpc node failed: " (Error.lib failure))) := by
        simp [EvmClient.get, hreq, hdo]
      rw [hget]
      exact ⟨⟨_, rfl, by simp⟩, rfl⟩
  · rintro (⟨failure, hreq⟩ | ⟨req, failure, hreq, hdo⟩)
    · have hpost : e.post L decode ctx u body okCode data =
          (data, some (Error.wrapf "failed to build http request: " (Error.lib failure))) := by
        simp [EvmClient.post, hreq]
      rw [hpost]
      exact ⟨⟨_, rfl, by simp⟩, rfl⟩
    · have hpost : e.post L decode ctx u body okCode data =
          (data, some (Error.wrapf "send evm node request failed: " (Error.lib failure))) := by
        simp [EvmClient.post, hreq, hdo]
      rw [hpost]
      exact ⟨⟨_, rfl, by simp⟩, rfl⟩

/-- C7 amended, at work: a node answering 200 with an empty body; the `post` of `Call`
succeeds without a value. -/
theorem get_post_outcomes_witness :
    OneOfFourOutcomes sampleLib.DecodeCall ⟨200, "200 OK", []⟩ (some ⟨none⟩) true
      ((sampleClient ⟨200, "200 OK", []⟩).post sampleLib sampleLib.DecodeCall sampleCtx
        ⟨"http", "localhost:8080", "/api/v1/evm/call"⟩ [0x80] StatusOK (some ⟨none⟩)) :=
  ((get_post_outcomes sampleLib (sampleClient ⟨200, "200 OK", []⟩) sampleLib.DecodeCall
    sampleCtx ⟨"http", "localhost:8080", "/api/v1/evm/balance/01"⟩
    ⟨"http", "localhost:8080", "/api/v1/evm/call"⟩ [0x80] StatusOK (some ⟨none⟩)
    true).2.1 _ ⟨200, "200 OK", []⟩ rfl rfl).1

/-- What `get` without the empty-response allowance returns when the node has answered
its request with the success status and a body that fails to decode. -/
theorem get_decode_failure {α : Type} (L : Lib) (e : EvmClient) (decode : Decoder α)
    (ctx : Context) (addr : URL) (d : α) (req : Request) (rsp : Response)
    (failure : LibError)
    (hreq : L.NewRequestWithContext ctx "GET" (L.urlString addr) none = Except.ok req)
    (hdo : e.hc (headerSet req "User-Agent" clientUserAgent) = Except.ok rsp)
    (hs : rsp.StatusCode = StatusOK) (hd : (decode rsp.Body d).2 = some failure) :
    e.get L decode ctx addr (some d) false =
      (some (decode rsp.Body d).1,
        some (Error.wrapf "failed to decode response body: " (Error.lib failure))) := by
  rw [get_of_response L e decode ctx addr (some d) false req rsp hreq hdo,
    decodeResponse_success_failed L decode rsp StatusOK d false failure hs hd]
  simp

/-- What `post` returns when the node has answered its request with the success status
and a body that fails to decode: success for the end of input, an error otherwise. -/
theorem post_decode_failure {α : Type} (L : Lib) (e : EvmClient) (decode : Decoder α)
    (ctx : Context) (u : URL) (body : Bytes) (okCode : Int) (d : α) (req : Request)
    (rsp : Response) (failure : LibError)
    (hreq : L.NewRequestWithContext ctx "POST" (L.urlString u) (some body) = Except.ok req)
    (hdo : e.hc (headerSet req userAgentHeader clientUserAgent) = Except.ok rsp)
    (hs : rsp.StatusCode = okCode) (hd : (decode rsp.Body d).2 = some failure) :
    e.post L decode ctx u body okCode (some d) =
      if failure.isEOF then (some (decode rsp.Body d).1, none)
      else (some (decode rsp.Body d).1,
        some (Error.wrapf "failed to decode response body: " (Error.lib failure))) := by
  rw [post_of_response L e decode ctx u body okCode (some d) req rsp hreq hdo,
    decodeResponse_success_failed L decode rsp okCode d true failure hs hd]
  cases failure.isEOF <;> simp

/-- C8: on the success status and a non-nil destination, a decode that stops at the end
of input is an error when `allowEmptyResponse` is false and a success when it is true;
any other decode failure is an error in both modes. Every `get` call of the client
passes false: once the node has answered the request that the call builds with
status 200 and a body that does not decode, empty included, each of `GetRoundNumber`,
`GetTxProof`, `GetBalance`, `GetTransactionCount` and `GetGasPrice` fails. `post`
always passes true: on such an answer `post`, and `Call` through it, succeed exactly
when the decode stopped at the end of input. -/
theorem empty_body_follows_flag (L : Lib) (e : EvmClient) (ctx : Context) :
    (∀ (α : Type) (decode : Decoder α) (rsp : Response) (successStatus : Int) (d : α)
      (failure : LibError),
      rsp.StatusCode = successStatus → (decode rsp.Body d).2 = some failure →
      (failure.isEOF = true →
        (decodeResponse L decode rsp successStatus (some d) false).2 =
          some (Error.wrapf "failed to decode response body: " (Error.lib failure)) ∧
        (decodeResponse L decode rsp successStatus (some d) true).2 = none) ∧
      (failure.isEOF = false → ∀ allowEmptyResponse,
        (decodeResponse L decode rsp successStatus (some d) allowEmptyResponse).2 =
          some (Error.wrapf "failed to decode response body: " (Error.lib failure)))) ∧
    (∀ req rsp failure,
      L.NewRequestWithContext ctx "GET"
        (L.urlString (e.getURL L [apiPathPrefix, "rounds/latest"])) none = Except.ok req →
      e.hc (headerSet req "User-Agent" clientUserAgent) = Except.ok rsp →
      rsp.StatusCode = StatusOK → (L.DecodeUint64 rsp.Body 0).2 = some failure →
      (e.GetRoundNumber L ctx).2 ≠ none) ∧
    (∀ unitID txHash req rsp failure,
      L.NewRequestWithContext ctx "GET" (L.urlString
        (e.getURL L [apiPathPrefix, "transactions", hexEncodeToString txHash])) none =
        Except.ok req →
      e.hc (headerSet req "User-Agent" clientUserAgent) = Except.ok rsp →
      rsp.StatusCode = StatusOK → (L.DecodeProof rsp.Body ⟨none, none⟩).2 = some failure →
      (e.GetTxProof L ctx unitID txHash).2 ≠ none) ∧
    (∀ ethAddr req rsp failure,
      L.NewRequestWithContext ctx "GET" (L.urlString
        (e.getURL L [apiPathPrefix, evmApiSubPrefix, "balance", hexEncodeToString ethAddr]))
        none = Except.ok req →
      e.hc (headerSet req "User-Agent" clientUserAgent) = Except.ok rsp →
      rsp.StatusCode = StatusOK → (L.DecodeBalance rsp.Body ⟨"", 0⟩).2 = some failure →
      (e.GetBalance L ctx ethAddr).2.2 ≠ none) ∧
    (∀ ethAddr req rsp failure,
      L.NewRequestWithContext ctx "GET" (L.urlString
        (e.getURL L
          [apiPathPrefix, evmApiSubPrefix, "transactionCount", hexEncodeToString ethAddr]))
        none = Except.ok req →
      e.hc (headerSet req "User-Agent" clientUserAgent) = Except.ok rsp →
      rsp.StatusCode = StatusOK → (L.DecodeNonce rsp.Body ⟨0⟩).2 = some failure →
      (e.GetTransactionCount L ctx ethAddr).2 ≠ none) ∧
    (∀ req rsp failure,
      L.NewRequestWithContext ctx "GET"
        (L.urlString (e.getURL L [apiPathPrefix, evmApiSubPrefix, "gasPrice"])) none =
        Except.ok req →
      e.hc (headerSet req "User-Agent" clientUserAgent) = Except.ok rsp →
      rsp.StatusCode = StatusOK → (L.DecodeGasPrice rsp.Body ⟨""⟩).2 = some failure →
      (e.GetGasPrice L ctx).2 ≠ none) ∧
    (∀ (α : Type) (decode : Decoder α) (u : URL) (body : Bytes) (okCode : Int) (d : α)
      (req : Request) (rsp : Response) (failure : LibError),
      L.NewRequestWithContext ctx "POST" (L.urlString u) (some body) = Except.ok req →
      e.hc (headerSet req userAgentHeader clientUserAgent) = Except.ok rsp →
      rsp.StatusCode = okCode → (decode rsp.Body d).2 = some failure →
      ((e.post L decode ctx u body okCode (some d)).2 = none ↔ failure.isEOF = true)) ∧
    (∀ callAttr b req rsp failure, L.MarshalCall callAttr = Except.ok b →
      L.NewRequestWithContext ctx "POST"
        (L.urlString (e.getURL L [apiPathPrefix, evmApiSubPrefix, "call"])) (some b) =
        Except.ok req →
      e.hc (headerSet req userAgentHeader clientUserAgent) = Except.ok rsp →
      rsp.StatusCode = StatusOK → (L.DecodeCall rsp.Body ⟨none⟩).2 = some failure →
      ((e.Call L ctx callAttr).2 = none ↔ failure.isEOF = true)) := by
  refine ⟨?_, ?_, ?_, ?_, ?_, ?_, ?_, ?_⟩
  · intro α decode rsp successStatus d failure hs hd
    constructor
    · intro hE
      rw [decodeResponse_success_failed L decode rsp successStatus d false failure hs hd,
        decodeResponse_success_failed L decode rsp successStatus d true failure hs hd]
      simp [hE]
    · intro hE allowEmptyResponse
      rw [decodeResponse_success_failed L decode rsp successStatus d allowEmptyResponse
        failure hs hd]
      simp [hE]
  · intro req rsp failure hreq hdo hs hd
    simp [EvmClient.GetRoundNumber,
      get_decode_failure L e L.DecodeUint64 ctx _ 0 req rsp failure hreq hdo hs hd]
  · intro unitID txHash req rsp failure hreq hdo hs hd
    simp [EvmClient.GetTxProof,
      get_decode_failure L e L.DecodeProof ctx _ ⟨none, none⟩ req rsp failure hreq hdo hs hd,
      Error.isErrNotFound]
  · intro ethAddr req rsp failure hreq hdo hs hd
    simp [EvmClient.GetBalance,
      get_decode_failure L e L.DecodeBalance ctx _ ⟨"", 0⟩ req rsp failure hreq hdo hs hd]
  · intro ethAddr req rsp failure hreq hdo hs hd
    simp [EvmClient.GetTransactionCount,
      get_decode_failure L e L.DecodeNonce ctx _ ⟨0⟩ req rsp failure hreq hdo hs hd]
  · intro req rsp failure hreq hdo hs hd
    simp [EvmClient.GetGasPrice,
      get_decode_failure L e L.DecodeGasPrice ctx _ ⟨""⟩ req rsp failure hreq hdo hs hd]
  · intro α decode u body okCode d req rsp failure hreq hdo hs hd
    rw [post_decode_failure L e decode ctx u body okCode d req rsp failure hreq hdo hs hd]
    cases failure.isEOF <;> simp
  · intro callAttr b req rsp failure hm hreq hdo hs hd
    unfold EvmClient.Call
    rw [hm]
    dsimp only
    rw [post_decode_failure L e L.DecodeCall ctx _ b StatusOK ⟨none⟩ req rsp failure
      hreq hdo hs hd]
    cases failure.isEOF <;> simp

/-- C8 at work: a node answering 200 with an empty body; `GetBalance` fails and `Call`
succeeds. -/
theorem empty_body_follows_flag_witness :
    ((sampleClient ⟨200, "200 OK", []⟩).GetBalance sampleLib sampleCtx [0x01]).2.2 ≠ none ∧
    ((sampleClient ⟨200, "200 OK", []⟩).Call sampleLib sampleCtx ⟨[0x80]⟩).2 = none :=
  ⟨(empty_body_follows_flag sampleLib (sampleClient ⟨200, "200 OK", []⟩) sampleCtx).2.2.2.1
      [0x01] _ ⟨200, "200 OK", []⟩ LibError.EOF rfl rfl rfl rfl,
    ((empty_body_follows_flag sampleLib (sampleClient ⟨200, "200 OK", []⟩)
      sampleCtx).2.2.2.2.2.2.2 ⟨[0x80]⟩ [0x80] _ ⟨200, "200 OK", []⟩ LibError.EOF
      rfl rfl rfl rfl rfl).2 rfl⟩

/-- C4 at work: a node answering 404 to the balance lookup; there is no bill and no
error. -/
theorem GetFeeCreditBill_no_bill_iff_witness :
    (sampleClient ⟨404, "404 Not Found", []⟩).GetFeeCreditBill sampleLib sampleCtx [0x01] =
      (none, none) :=
  (GetFeeCreditBill_no_bill_iff sampleLib (sampleClient ⟨404, "404 Not Found", []⟩)
    sampleCtx [0x01]).1.2 ⟨Error.ErrNotFound, by decide, rfl⟩

/-- C10 at work: a node answering 200 with the body `[h'07', null]`; the record-proof
holds the record `07` and no proof. -/
theorem GetTxProof_outcomes_witness :
    (sampleClient ⟨200, "200 OK", [0x82, 0x41, 7, 0xf6]⟩).GetTxProof sampleLib sampleCtx
      [0x01] [0xab] = (some { TxRecord := some ⟨[7]⟩, TxProof := none }, none) :=
  ((GetTxProof_outcomes sampleLib (sampleClient ⟨200, "200 OK", [0x82, 0x41, 7, 0xf6]⟩)
    sampleCtx [0x01] [0xab]).1 _ ⟨200, "200 OK", [0x82, 0x41, 7, 0xf6]⟩ rfl rfl).2.1 rfl
    (some ⟨[7]⟩) none (by decide)

/-! ## Theorems: the orchestration command -/

/-- C11 as stated fails: a node reporting round 2^64 - 1. The uint64 sum wraps and the
builder is called with timeout round 9, which is neither the round plus 10 nor after
the round; the node refuses the order, which it would confirm had the builder been
called with the round plus 10. -/
theorem execAddVarCmd_timeout_wraps :
    execAddVarCmd (sampleAddVarEnv 18446744073709551615) sampleCommand sampleAddVarConfig =
      afterBuild (sampleAddVarEnv 18446744073709551615) ⟨"http://localhost:28866"⟩
        sampleCommand
        ((sampleAddVarEnv 18446744073709551615).NewAddVarTx ⟨[]⟩ 3 4 [] 9 10 ⟨[1]⟩) ∧
    ¬ (9 = 18446744073709551615 + txTimeoutBlockCount) ∧
    ¬ (18446744073709551615 < 9) ∧
    execAddVarCmd (sampleAddVarEnv 18446744073709551615) sampleCommand sampleAddVarConfig =
      some (Error.wrapf "failed to send tx: "
        (Error.lib (LibError.other "transaction has timed out"))) ∧
    afterBuild (sampleAddVarEnv 18446744073709551615) ⟨"http://localhost:28866"⟩
        sampleCommand
        ((sampleAddVarEnv 18446744073709551615).NewAddVarTx ⟨[]⟩ 3 4 []
          (18446744073709551615 + txTimeoutBlockCount) 10 ⟨[1]⟩) = none := by
  refine ⟨by decide, by decide, by decide, by decide, by decide⟩

/-- C11, amended: when the steps before it succeed and the node reports round `r`, a
uint64, `execAddVarCmd` calls the builder with the timeout round `(r + 10) mod 2^64`;
for `r` below `2^64 - 10` that is `r + 10`, which is after `r`. -/
theorem execAddVarCmd_timeout {Order : Type} (env : AddVarEnv Order) (cmd : Command)
    (config : AddVarCmdConfig) (am : AccountManager) (ac : AccountKey)
    (orcClient : OrchestrationClient) (varFile : ValidatorAssignmentRecord)
    (pdr : PartitionDescriptionRecord) (unitID : Bytes) (roundInfo : RoundInfo) (maxFee : Nat)
    (ham : env.LoadExistingAccountManager config.OrchestrationConfig.WalletConfig =
      Except.ok am)
    (hac : env.GetAccountKey am ((config.OrchestrationConfig.Key + 2 ^ 64 - 1) % 2 ^ 64) =
      Except.ok ac)
    (hcl : env.NewOrchestrationPartitionClient cmd.ctx
      (env.BuildRpcUrl config.OrchestrationConfig.RpcUrl) = Except.ok orcClient)
    (hvar : env.ReadJsonFile config.VarFilePath = Except.ok varFile)
    (hpdr : env.PartitionDescription orcClient cmd.ctx = Except.ok pdr)
    (hid : env.ComposeUnitID pdr config.ShardID env.VarUnitType
      (env.PrndSh config.PartitionID config.ShardID) = Except.ok unitID)
    (hround : env.GetRoundInfo orcClient cmd.ctx = Except.ok roundInfo)
    (hfee : env.ParseMaxFeeFlag cmd = Except.ok maxFee) :
    execAddVarCmd env cmd config =
      afterBuild env orcClient cmd
        (env.NewAddVarTx varFile pdr.NetworkID pdr.PartitionID unitID
          ((roundInfo.RoundNumber + 10) % 2 ^ 64) maxFee ac) ∧
    (roundInfo.RoundNumber < 2 ^ 64 - 10 →
      (roundInfo.RoundNumber + 10) % 2 ^ 64 = roundInfo.RoundNumber + 10 ∧
      roundInfo.RoundNumber < (roundInfo.RoundNumber + 10) % 2 ^ 64 ∧
      execAddVarCmd env cmd config =
        afterBuild env orcClient cmd
          (env.NewAddVarTx varFile pdr.NetworkID pdr.PartitionID unitID
            (roundInfo.RoundNumber + 10) maxFee ac)) := by
  have heq : execAddVarCmd env cmd config =
      afterBuild env orcClient cmd
        (env.NewAddVarTx varFile pdr.NetworkID pdr.PartitionID unitID
          ((roundInfo.RoundNumber + 10) % 2 ^ 64) maxFee ac) := by
    unfold execAddVarCmd afterBuild
    simp only [ham, hac, hcl, hvar, hpdr, hid, hround, hfee, txTimeoutBlockCount]
  refine ⟨heq, ?_⟩
  intro hr
  have hmod : (roundInfo.RoundNumber + 10) % 2 ^ 64 = roundInfo.RoundNumber + 10 :=
    Nat.mod_eq_of_lt (by omega)
  refine ⟨hmod, by omega, ?_⟩
  rw [heq, hmod]

/-- C11 amended, at work: a node at round 5; the builder is called with timeout round
15 and the order is confirmed. -/
theorem execAddVarCmd_timeout_witness :
    execAddVarCmd (sampleAddVarEnv 5) sampleCommand sampleAddVarConfig =
      afterBuild (sampleAddVarEnv 5) ⟨"http://localhost:28866"⟩ sampleCommand
        ((sampleAddVarEnv 5).NewAddVarTx ⟨[]⟩ 3 4 [] ((5 + 10) % 2 ^ 64) 10 ⟨[1]⟩) :=
  (execAddVarCmd_timeout (sampleAddVarEnv 5) sampleCommand sampleAddVarConfig ⟨"wallet"⟩
    ⟨[1]⟩ ⟨"http://localhost:28866"⟩ ⟨[]⟩ ⟨3, 4⟩ [] ⟨5⟩ 10 rfl rfl rfl rfl rfl rfl rfl rfl).1

/-! ## Theorems: the fee credit bill -/

/-- The digit scan succeeds exactly on a run of decimal digits, with their value. -/
theorem scanDigits_eq (cs : List Char) (acc : Nat) :
    scanDigits cs acc =
      if cs.all Char.isDigit then
        some (cs.foldl (fun acc c => acc * 10 + (c.toNat - 48)) acc)
      else none := by
  induction cs generalizing acc with
  | nil => simp [scanDigits]
  | cons c cs ih =>
    unfold scanDigits digitVal
    by_cases hc : c.isDigit = true
    · simp only [hc, if_true, List.all_cons, Bool.true_and, List.foldl_cons]
      exact ih _
    · simp [hc]

/-- What `SetString10` accepts is the base-10 integer literals, with their values. -/
theorem SetString10_eq_base10Literal (s : String) : SetString10 s = base10Literal s := by
  have key : ∀ (neg : Bool) (cs : List Char),
      (if cs.isEmpty then none
        else (scanDigits cs 0).map fun n => if neg then -(n : Int) else (n : Int)) =
      (if cs.isEmpty || !cs.all Char.isDigit then none
        else some (if neg then
          -((cs.foldl (fun acc c => acc * 10 + (c.toNat - 48)) 0 : Nat) : Int)
          else ((cs.foldl (fun acc c => acc * 10 + (c.toNat - 48)) 0 : Nat) : Int))) := by
    intro neg cs
    rw [scanDigits_eq]
    cases hE : cs.isEmpty <;> cases hA : cs.all Char.isDigit <;> simp
  unfold SetString10 base10Literal
  split
  · next cs h =>
    have := key true cs
    simpa using this
  · next cs h =>
    have := key false cs
    simpa using this
  · next cs h1 h2 =>
    have := key false s.data
    simpa using this

/-- C12: when the balance lookup succeeds with balance string `s` and counter `c`, then
for `s` a base-10 integer literal `GetFeeCreditBill` returns the bill with the
requested unit id, the value `WeiToAlpha` of the integer that `s` denotes and the
counter `c`, and for any other `s` it returns an error and no bill. -/
theorem GetFeeCreditBill_of_balance (L : Lib) (e : EvmClient) (ctx : Context)
    (unitID : Bytes) (s : String) (c : Nat)
    (hb : e.GetBalance L ctx unitID = (s, c, none)) :
    (∀ i, base10Literal s = some i →
      e.GetFeeCreditBill L ctx unitID =
        (some { Id := unitID, Value := WeiToAlpha L.uint64OutOfRange i, Counter := c }, none)) ∧
    (base10Literal s = none →
      e.GetFeeCreditBill L ctx unitID =
        (none, some (Error.errorf
          ("account " ++ hexutilEncode unitID ++ " has invalid balance " ++ s)))) := by
  constructor
  · intro i hi
    rw [← SetString10_eq_base10Literal] at hi
    unfold EvmClient.GetFeeCreditBill
    simp only [hb, hi]
  · intro hnone
    rw [← SetString10_eq_base10Literal] at hnone
    unfold EvmClient.GetFeeCreditBill
    simp only [hb, hnone]

/-- C12 at work: a node answering the balance lookup with `["20000000000", 7]`; the bill
has value 2 and counter 7. -/
theorem GetFeeCreditBill_of_balance_witness :
    (sampleClient ⟨200, "200 OK",
        [0x82, 0x6b, 50, 48, 48, 48, 48, 48, 48, 48, 48, 48, 48, 7]⟩).GetFeeCreditBill
      sampleLib sampleCtx [0x01] =
      (some { Id := [0x01], Value := WeiToAlpha sampleLib.uint64OutOfRange 20000000000,
              Counter := 7 }, none) :=
  (GetFeeCreditBill_of_balance sampleLib
    (sampleClient ⟨200, "200 OK",
      [0x82, 0x6b, 50, 48, 48, 48, 48, 48, 48, 48, 48, 48, 48, 7]⟩)
    sampleCtx [0x01] "20000000000" 7 (by decide)).1 20000000000 (by decide)

/-! ## Theorems: WeiToAlpha is monotone below the top of the range -/

/-- The comparison that `ilog2Quot` makes, with both exponents on one side each. -/
theorem ilog2Quot_test_iff (n d a b : Nat) :
    d * 2 ^ (a - b) ≤ n * 2 ^ (b - a) ↔ d * 2 ^ a ≤ n * 2 ^ b := by
  rcases le_total a b with hab | hab
  · obtain ⟨k, rfl⟩ := Nat.exists_eq_add_of_le hab
    have h0 : a - (a + k) = 0 := by omega
    have hk : a + k - a = k := by omega
    rw [h0, hk, pow_zero, mul_one, Nat.add_comm a k, pow_add, ← mul_assoc]
    exact (mul_le_mul_right (pow_pos (by decide) a)).symm
  · obtain ⟨k, rfl⟩ := Nat.exists_eq_add_of_le hab
    have h0 : b - (b + k) = 0 := by omega
    have hk : b + k - b = k := by omega
    rw [h0, hk, pow_zero, mul_one, Nat.add_comm b k, pow_add, ← mul_assoc]
    exact (mul_le_mul_right (pow_pos (by decide) b)).symm

/-- The binary exponent of a quotient, as a difference of two naturals that bracket
the quotient between two powers of two. -/
theorem ilog2Quot_cases (n d : Nat) (hn : 0 < n) (hd : 0 < d) :
    ∃ p q : Nat, ilog2Quot n d = (p : Int) - (q : Int) ∧
      d * 2 ^ p ≤ n * 2 ^ q ∧ n * 2 ^ q < d * 2 ^ (p + 1) := by
  obtain ⟨hna, hna2⟩ := log2Floor_spec n hn
  obtain ⟨hdb, hdb2⟩ := log2Floor_spec d hd
  have hpa : 0 < 2 ^ log2Floor n := pow_pos (by decide) _
  have hpb : 0 < 2 ^ log2Floor d := pow_pos (by decide) _
  unfold ilog2Quot
  dsimp only
  split_ifs with ht
  · rw [ilog2Quot_test_iff] at ht
    refine ⟨log2Floor n, log2Floor d, rfl, ht, ?_⟩
    calc n * 2 ^ log2Floor d < 2 ^ (log2Floor n + 1) * 2 ^ log2Floor d :=
          Nat.mul_lt_mul_of_pos_right hna2 hpb
      _ ≤ 2 ^ (log2Floor n + 1) * d := Nat.mul_le_mul_left _ hdb
      _ = d * 2 ^ (log2Floor n + 1) := Nat.mul_comm _ _
  · rw [ilog2Quot_test_iff] at ht
    refine ⟨log2Floor n, log2Floor d + 1, by push_cast; ring, ?_, ?_⟩
    · calc d * 2 ^ log2Floor n ≤ 2 ^ (log2Floor d + 1) * 2 ^ log2Floor n :=
            Nat.mul_le_mul_right _ (le_of_lt hdb2)
        _ ≤ 2 ^ (log2Floor d + 1) * n := Nat.mul_le_mul_left _ hna
        _ = n * 2 ^ (log2Floor d + 1) := Nat.mul_comm _ _
    · have h2 : n * 2 ^ log2Floor d < d * 2 ^ log2Floor n := Nat.lt_of_not_le ht
      rw [pow_succ, pow_succ, ← mul_assoc, ← mul_assoc]
      exact Nat.mul_lt_mul_of_pos_right h2 (by decide)

/-- Rounding a fraction does not depend on a common factor. -/
theorem roundHalfEven_mul_right (num den c : Nat) (hc : 0 < c) :
    roundHalfEven (num * c) (den * c) = roundHalfEven num den := by
  unfold roundHalfEven
  dsimp only
  rw [Nat.mul_div_mul_right num den hc, Nat.mul_mod_mul_right]
  have h1 : 2 * (num % den * c) < den * c ↔ 2 * (num % den) < den := by
    rw [← mul_assoc]
    exact Nat.mul_lt_mul_right hc
  have h2 : den * c < 2 * (num % den * c) ↔ den < 2 * (num % den) := by
    rw [← mul_assoc]
    exact Nat.mul_lt_mul_right hc
  simp only [h1, h2]

/-- Rounding is monotone in the numerator. -/
theorem roundHalfEven_mono (a b den : Nat) (hden : 0 < den) (hab : a ≤ b) :
    roundHalfEven a den ≤ roundHalfEven b den := by
  have hqa := Nat.div_add_mod a den
  have hqb := Nat.div_add_mod b den
  have hra : a % den < den := Nat.mod_lt _ hden
  have hrb : b % den < den := Nat.mod_lt _ hden
  have hq : a / den ≤ b / den := Nat.div_le_div_right hab
  rcases Nat.lt_or_ge (a / den) (b / den) with hlt | hge
  · rcases roundHalfEven_cases a den with h | ⟨h, -⟩ <;>
      rcases roundHalfEven_cases b den with h' | ⟨h', -⟩ <;> omega
  · have heq : a / den = b / den := le_antisymm hq hge
    have hr : a % den ≤ b % den := by
      rw [heq] at hqa
      omega
    unfold roundHalfEven
    dsimp only
    rw [heq]
    split_ifs <;> omega

/-- The float64 nearest to a quotient between `2 ^ (-34)` and `2 ^ 64`, with the
exponent counted from `-86`: the mantissa is the quotient scaled into
`[2 ^ 52, 2 ^ 53)` and rounded. -/
theorem roundToFloat64_of_range (n d : Nat) (hn : 0 < n) (hd : 0 < d)
    (hlo : d ≤ n * 2 ^ 34) (hhi : n < d * 2 ^ 64) :
    ∃ t : Nat, t ≤ 97 ∧
      roundToFloat64 n d = some (roundHalfEven (n * 2 ^ 86) (d * 2 ^ t), (t : Int) - 86) ∧
      2 ^ 52 * (d * 2 ^ t) ≤ n * 2 ^ 86 ∧ n * 2 ^ 86 < 2 ^ 53 * (d * 2 ^ t) := by
  obtain ⟨p, q, he, h1, h2⟩ := ilog2Quot_cases n d hn hd
  have hq : q < p + 35 := by
    have h3 : n * 2 ^ q < n * 2 ^ (p + 35) :=
      calc n * 2 ^ q < d * 2 ^ (p + 1) := h2
        _ ≤ n * 2 ^ 34 * 2 ^ (p + 1) := Nat.mul_le_mul_right _ hlo
        _ = n * 2 ^ (p + 35) := by rw [mul_assoc, ← pow_add]; congr 2; omega
    exact (Nat.pow_lt_pow_iff_right (by decide)).1 (Nat.lt_of_mul_lt_mul_left h3)
  have hp : p < q + 64 := by
    have h3 : d * 2 ^ p < d * 2 ^ (q + 64) :=
      calc d * 2 ^ p ≤ n * 2 ^ q := h1
        _ < d * 2 ^ 64 * 2 ^ q := Nat.mul_lt_mul_of_pos_right hhi (pow_pos (by decide) q)
        _ = d * 2 ^ (q + 64) := by rw [mul_assoc, ← pow_add]; congr 2; omega
    exact (Nat.pow_lt_pow_iff_right (by decide)).1 (Nat.lt_of_mul_lt_mul_left h3)
  obtain ⟨t, ht⟩ : ∃ t : Nat, t + q = p + 34 := ⟨p + 34 - q, by omega⟩
  have hpow : 0 < 2 ^ q := pow_pos (by decide) q
  refine ⟨t, by omega, ?_, ?_, ?_⟩
  · unfold roundToFloat64
    rw [if_neg (by omega)]
    dsimp only
    rw [he]
    have hqe : max ((p : Int) - (q : Int)) (-1022) - 52 = (t : Int) - 86 := by omega
    rw [hqe]
    have hover : ¬ (971 < (t : Int) - 86 ∨ ((t : Int) - 86 = 971 ∧ 2 ^ 53 ≤
        (if 0 ≤ (t : Int) - 86 then roundHalfEven n (d * 2 ^ ((t : Int) - 86).toNat)
          else roundHalfEven (n * 2 ^ (-((t : Int) - 86)).toNat) d))) := by omega
    rw [if_neg hover]
    by_cases hs : 0 ≤ (t : Int) - 86
    · rw [if_pos hs]
      have htn : ((t : Int) - 86).toNat = t - 86 := by omega
      rw [htn, ← roundHalfEven_mul_right n (d * 2 ^ (t - 86)) (2 ^ 86) (pow_pos (by decide) _)]
      have hd2 : d * 2 ^ (t - 86) * 2 ^ 86 = d * 2 ^ t := by
        rw [mul_assoc, ← pow_add]
        congr 2
        omega
      rw [hd2]
    · rw [if_neg hs]
      have htn : (-((t : Int) - 86)).toNat = 86 - t := by omega
      rw [htn, ← roundHalfEven_mul_right (n * 2 ^ (86 - t)) d (2 ^ t) (pow_pos (by decide) _)]
      have hn2 : n * 2 ^ (86 - t) * 2 ^ t = n * 2 ^ 86 := by
        rw [mul_assoc, ← pow_add]
        congr 2
        omega
      rw [hn2]
  · have e1 : 2 ^ 52 * (d * 2 ^ t) * 2 ^ q = d * 2 ^ p * 2 ^ 86 := by
      have : 2 ^ p * 2 ^ 86 = 2 ^ 52 * (2 ^ t * 2 ^ q) := by
        rw [← pow_add, ← pow_add, ← pow_add]
        congr 1
        omega
      calc 2 ^ 52 * (d * 2 ^ t) * 2 ^ q = d * (2 ^ 52 * (2 ^ t * 2 ^ q)) := by ring
        _ = d * (2 ^ p * 2 ^ 86) := by rw [this]
        _ = d * 2 ^ p * 2 ^ 86 := by ring
    have e2 : n * 2 ^ 86 * 2 ^ q = n * 2 ^ q * 2 ^ 86 := by ring
    apply Nat.le_of_mul_le_mul_right _ hpow
    rw [e1, e2]
    exact Nat.mul_le_mul_right _ h1
  · have e1 : 2 ^ 53 * (d * 2 ^ t) * 2 ^ q = d * 2 ^ (p + 1) * 2 ^ 86 := by
      have : 2 ^ (p + 1) * 2 ^ 86 = 2 ^ 53 * (2 ^ t * 2 ^ q) := by
        rw [← pow_add, ← pow_add, ← pow_add]
        congr 1
        omega
      calc 2 ^ 53 * (d * 2 ^ t) * 2 ^ q = d * (2 ^ 53 * (2 ^ t * 2 ^ q)) := by ring
        _ = d * (2 ^ (p + 1) * 2 ^ 86) := by rw [this]
        _ = d * 2 ^ (p + 1) * 2 ^ 86 := by ring
    have e2 : n * 2 ^ 86 * 2 ^ q = n * 2 ^ q * 2 ^ 86 := by ring
    apply Nat.lt_of_mul_lt_mul_right (a := 2 ^ q)
    rw [e1, e2]
    exact Nat.mul_lt_mul_of_pos_right h2 (pow_pos (by decide) 86)

/-- Truncating `m * 2 ^ (t - 86)` is dividing `m * 2 ^ t` by `2 ^ 86`. -/
theorem truncMag_scaled (m t : Nat) : truncMag m ((t : Int) - 86) = m * 2 ^ t / 2 ^ 86 := by
  unfold truncMag
  by_cases hs : 0 ≤ (t : Int) - 86
  · rw [if_pos hs]
    have htn : ((t : Int) - 86).toNat = t - 86 := by omega
    have h2 : m * 2 ^ t = m * 2 ^ (t - 86) * 2 ^ 86 := by
      rw [mul_assoc, ← pow_add]
      congr 2
      omega
    rw [htn, h2, Nat.mul_div_cancel _ (pow_pos (by decide) 86)]
  · rw [if_neg hs]
    have htn : (-((t : Int) - 86)).toNat = 86 - t := by omega
    have h2 : 2 ^ 86 = 2 ^ (86 - t) * 2 ^ t := by
      rw [← pow_add]
      congr 1
      omega
    rw [htn, h2, Nat.mul_div_mul_right _ _ (pow_pos (by decide) t)]

/-- A mantissa rounded from a quotient in `[2 ^ 52, 2 ^ 53)` lies in `[2 ^ 52, 2 ^ 53]`. -/
theorem roundHalfEven_mantissa (num den : Nat) (hden : 0 < den)
    (hlo : 2 ^ 52 * den ≤ num) (hhi : num < 2 ^ 53 * den) :
    2 ^ 52 ≤ roundHalfEven num den ∧ roundHalfEven num den ≤ 2 ^ 53 := by
  have h1 : 2 ^ 52 ≤ num / den := (Nat.le_div_iff_mul_le hden).2 hlo
  have h2 : num / den < 2 ^ 53 := (Nat.div_lt_iff_lt_mul hden).2 hhi
  rcases roundHalfEven_cases num den with h | ⟨h, -⟩ <;> omega

/-- Below `(2 ^ 64 - 1024) * 10 ^ 10` wei the float64 of `WeiToAlpha` truncates to a
uint64, so the result is the same on every platform: the rounded mantissa, scaled,
without its 86 fraction bits. -/
theorem WeiToAlpha_scaled (impl : Float64 → Nat) (w : Nat) (h0 : 0 < w)
    (hw : w < (2 ^ 64 - 1024) * 10 ^ 10) :
    ∃ t : Nat,
      WeiToAlpha impl (w : Int) =
        roundHalfEven (w * 10 ^ 6 * 2 ^ 86) (10 ^ 16 * 2 ^ t) * 2 ^ t / 2 ^ 86 ∧
      2 ^ 52 * (10 ^ 16 * 2 ^ t) ≤ w * 10 ^ 6 * 2 ^ 86 ∧
      w * 10 ^ 6 * 2 ^ 86 < 2 ^ 53 * (10 ^ 16 * 2 ^ t) := by
  obtain ⟨t, ht, hround, hlo, hhi⟩ := roundToFloat64_of_range (w * 10 ^ 6) (10 ^ 16)
    (by omega) (by decide) (by omega) (by omega)
  refine ⟨t, ?_, hlo, hhi⟩
  have hden : 0 < 10 ^ 16 * 2 ^ t := Nat.mul_pos (by decide) (pow_pos (by decide) t)
  obtain ⟨hm1, hm2⟩ := roundHalfEven_mantissa _ _ hden hlo hhi
  apply WeiToAlpha_of_defined
  rw [weiToAlphaFloat_natCast, hround]
  dsimp only
  unfold Float64.toUint64?
  dsimp only
  rw [truncMag_scaled]
  generalize hm : roundHalfEven (w * 10 ^ 6 * 2 ^ 86) (10 ^ 16 * 2 ^ t) = m at hm1 hm2 ⊢
  have hV : m * 2 ^ t < 2 ^ 64 * 2 ^ 86 := by
    rcases Nat.lt_or_ge t 97 with ht2 | ht2
    · have hp : 2 ^ t ≤ 2 ^ 96 := Nat.pow_le_pow_right (by decide) (by omega)
      calc m * 2 ^ t ≤ 2 ^ 53 * 2 ^ 96 := Nat.mul_le_mul hm2 hp
        _ < 2 ^ 64 * 2 ^ 86 := by decide
    · have ht3 : t = 97 := by omega
      subst ht3
      have hm3 : m ≤ 2 ^ 53 - 1 := by
        have hdm := Nat.div_add_mod (w * 10 ^ 6 * 2 ^ 86) (10 ^ 16 * 2 ^ 97)
        have hrm : w * 10 ^ 6 * 2 ^ 86 % (10 ^ 16 * 2 ^ 97) < 10 ^ 16 * 2 ^ 97 :=
          Nat.mod_lt _ hden
        rcases roundHalfEven_cases (w * 10 ^ 6 * 2 ^ 86) (10 ^ 16 * 2 ^ 97) with h | ⟨h, h2⟩
        · rw [hm] at h
          omega
        · rw [hm] at h
          omega
      calc m * 2 ^ 97 ≤ (2 ^ 53 - 1) * 2 ^ 97 := Nat.mul_le_mul_right _ hm3
        _ < 2 ^ 64 * 2 ^ 86 := by decide
  have hT : m * 2 ^ t / 2 ^ 86 < 2 ^ 64 :=
    (Nat.div_lt_iff_lt_mul (pow_pos (by decide) 86)).2 hV
  by_cases hz : m * 2 ^ t / 2 ^ 86 = 0
  · rw [if_pos hz, hz]
  · rw [if_neg hz]
    simp only [Bool.false_eq_true, if_false, if_pos hT]

/-- The rounded and scaled values of two quotients are ordered as the quotients. -/
theorem scaled_value_mono (a b d s t : Nat) (hd : 0 < d) (hab : a ≤ b)
    (has : 2 ^ 52 * (d * 2 ^ s) ≤ a) (has2 : a < 2 ^ 53 * (d * 2 ^ s))
    (hbt : 2 ^ 52 * (d * 2 ^ t) ≤ b) (hbt2 : b < 2 ^ 53 * (d * 2 ^ t)) :
    roundHalfEven a (d * 2 ^ s) * 2 ^ s ≤ roundHalfEven b (d * 2 ^ t) * 2 ^ t := by
  have hds : 0 < d * 2 ^ s := Nat.mul_pos hd (pow_pos (by decide) s)
  have hdt : 0 < d * 2 ^ t := Nat.mul_pos hd (pow_pos (by decide) t)
  obtain ⟨-, hma⟩ := roundHalfEven_mantissa a _ hds has has2
  obtain ⟨hmb, -⟩ := roundHalfEven_mantissa b _ hdt hbt hbt2
  rcases Nat.lt_trichotomy s t with hst | hst | hst
  · have hp : 2 * 2 ^ s ≤ 2 ^ t := by
      have : 2 ^ (s + 1) ≤ 2 ^ t := Nat.pow_le_pow_right (by decide) hst
      rw [pow_succ] at this
      omega
    calc roundHalfEven a (d * 2 ^ s) * 2 ^ s ≤ 2 ^ 53 * 2 ^ s := Nat.mul_le_mul_right _ hma
      _ = 2 ^ 52 * (2 * 2 ^ s) := by ring
      _ ≤ 2 ^ 52 * 2 ^ t := Nat.mul_le_mul_left _ hp
      _ ≤ roundHalfEven b (d * 2 ^ t) * 2 ^ t := Nat.mul_le_mul_right _ hmb
  · subst hst
    exact Nat.mul_le_mul_right _ (roundHalfEven_mono a b _ hds hab)
  · exfalso
    have hp : 2 * 2 ^ t ≤ 2 ^ s := by
      have : 2 ^ (t + 1) ≤ 2 ^ s := Nat.pow_le_pow_right (by decide) hst
      rw [pow_succ] at this
      omega
    have h1 : 2 ^ 53 * (d * 2 ^ t) ≤ 2 ^ 52 * (d * 2 ^ s) :=
      calc 2 ^ 53 * (d * 2 ^ t) = 2 ^ 52 * (d * (2 * 2 ^ t)) := by ring
        _ ≤ 2 ^ 52 * (d * 2 ^ s) := Nat.mul_le_mul_left _ (Nat.mul_le_mul_left _ hp)
    omega

set_option maxRecDepth 4000 in
/-- The quotient `2 ^ 64 - 2048` is a float64 and converts to itself. -/
theorem WeiToAlpha_amd64_below_top :
    WeiToAlpha amd64Uint64 184467440737095495680000000000 = 18446744073709549568 := by
  decide

set_option maxRecDepth 4000 in
/-- The quotient `2 ^ 64 - 1` rounds to the float64 `2 ^ 64`, which no uint64 holds;
the amd64 conversion gives `2 ^ 63`. -/
theorem WeiToAlpha_amd64_at_top :
    weiToAlphaFloat 184467440737095516150000000000 = Float64.finite false (2 ^ 53) 11 ∧
    WeiToAlpha amd64Uint64 184467440737095516150000000000 = 9223372036854775808 := by
  decide

/-- C13, the code where it leaves the order: the amounts `(2 ^ 64 - 2048) * 10 ^ 10`
and `(2 ^ 64 - 1) * 10 ^ 10` are in order and their quotients by `10 ^ 10` are below
`2 ^ 64`. The second quotient rounds to the float64 `2 ^ 64`, for which the language
does not define `uint64(f)`; on amd64 the first amount converts to `2 ^ 64 - 2048` and
the second, larger one to `2 ^ 63`. -/
theorem WeiToAlpha_not_monotone :
    (184467440737095495680000000000 : Int) ≤ 184467440737095516150000000000 ∧
    (184467440737095516150000000000 : Int) / 10 ^ 10 < 2 ^ 64 ∧
    weiToAlphaFloat 184467440737095516150000000000 = Float64.finite false (2 ^ 53) 11 ∧
    (Float64.finite false (2 ^ 53) 11).toUint64? = none ∧
    WeiToAlpha amd64Uint64 184467440737095495680000000000 = 18446744073709549568 ∧
    WeiToAlpha amd64Uint64 184467440737095516150000000000 = 9223372036854775808 ∧
    ¬ (WeiToAlpha amd64Uint64 184467440737095495680000000000 ≤
        WeiToAlpha amd64Uint64 184467440737095516150000000000) := by
  refine ⟨by decide, by decide, WeiToAlpha_amd64_at_top.1, by decide,
    WeiToAlpha_amd64_below_top, WeiToAlpha_amd64_at_top.2, ?_⟩
  rw [WeiToAlpha_amd64_below_top, WeiToAlpha_amd64_at_top.2]
  decide

/-- Where `WeiToAlpha` keeps the order: for non-negative amounts `w1 ≤ w2` whose
quotient by `10 ^ 10` is below `2 ^ 64 - 1024`, `WeiToAlpha w1 ≤ WeiToAlpha w2`, on
every platform. From `2 ^ 64 - 1024` on the quotient rounds to the float64 `2 ^ 64`. -/
theorem WeiToAlpha_mono (impl : Float64 → Nat) (w1 w2 : Nat) (h12 : w1 ≤ w2)
    (h2 : w2 / 10 ^ 10 < 2 ^ 64 - 1024) :
    WeiToAlpha impl (w1 : Int) ≤ WeiToAlpha impl (w2 : Int) := by
  have hw2 : w2 < (2 ^ 64 - 1024) * 10 ^ 10 := by omega
  rcases Nat.eq_zero_or_pos w1 with h0 | h0
  · subst h0
    have hz : WeiToAlpha impl ((0 : Nat) : Int) = 0 := WeiToAlpha_of_defined (by decide)
    rw [hz]
    exact Nat.zero_le _
  · obtain ⟨s, hs, hs1, hs2⟩ := WeiToAlpha_scaled impl w1 h0 (by omega)
    obtain ⟨t, ht, ht1, ht2⟩ := WeiToAlpha_scaled impl w2 (by omega) hw2
    rw [hs, ht]
    apply Nat.div_le_div_right
    exact scaled_value_mono (w1 * 10 ^ 6 * 2 ^ 86) (w2 * 10 ^ 6 * 2 ^ 86) (10 ^ 16) s t
      (by decide) (by omega) hs1 hs2 ht1 ht2

/-- The order kept, at work: the amounts on either side of the least one that
`WeiToAlpha` rounds up. -/
theorem WeiToAlpha_mono_witness :
    WeiToAlpha saturatingUint64 ((10485759999999999 : Nat) : Int) ≤
      WeiToAlpha saturatingUint64 ((10485769999999999 : Nat) : Int) :=
  WeiToAlpha_mono saturatingUint64 10485759999999999 10485769999999999 (by decide) (by decide)

/-! ## Theorems: the fee check on converted amounts -/

end EvmWallet
